import Mathlib

/-! TrustLedger event store (`src/EventStore.js`)

A shallow embedding of the `EventStore` class: the append-only event log
(`recordEvent`) and the replay of one aggregate's events over a seed state
(`rebuildState`).

Modelled JavaScript values:

* Primitives: `undefined`, `null`, booleans, numbers and strings.  A number is
  `NaN`, an infinity, or a finite value given by an integer; `-0` is identified
  with `0` (the program cannot tell them apart: `===`, truthiness, JSON text and
  string conversion agree on both).  Fractional numbers are outside the model.
* Objects: plain objects, as the list of their own enumerable string-keyed data
  properties in property order, with `Object.prototype` as prototype.  Arrays,
  functions, symbols, BigInts, accessors and exotic objects are outside the
  model, so no modelled value is callable.
* `eventId` and `nextEventId` are natural numbers: the counter is exact below
  `2 ^ 53`, and a JavaScript array holds fewer than `2 ^ 32` elements.
* `Date.now()` is an input of `recordEvent` (the parameter `now`).
* The two conversions between numbers and strings that ECMAScript leaves
  implementation-approximated (`Number::toString`, `StringToNumber`) are
  parameters of the model, gathered in `Host`.
-/

namespace TrustLedger

/-! ## Values -/

/-- A JavaScript Number restricted to integer values, `NaN` and the infinities. -/
inductive JSNumber
  | nan
  | inf (negative : Bool)
  | fin (z : Int)
  deriving DecidableEq, Repr

/-- A JavaScript primitive value. -/
inductive JSPrim
  | undefined
  | null
  | bool (b : Bool)
  | num (n : JSNumber)
  | str (s : String)
  deriving DecidableEq, Repr

/-- A JavaScript value: a primitive, or a plain object given by its own
enumerable properties in property order. -/
inductive JSValue
  | prim (p : JSPrim)
  | obj (fields : List (String × JSValue))
  deriving Repr

/-- The exceptions the modelled code can raise. -/
inductive JSError
  | typeError
  | syntaxError
  deriving DecidableEq, Repr

/-- Host conversions between numbers and strings (`Number::toString` and
`StringToNumber`), which ECMAScript leaves implementation-approximated. -/
structure Host where
  numberToString : JSNumber → String
  stringToNumber : String → JSNumber

/-- The number `n` as a value. -/
def JSValue.ofInt (z : Int) : JSValue := .prim (.num (.fin z))

/-- The string `s` as a value. -/
def JSValue.ofString (s : String) : JSValue := .prim (.str s)

/-- The value `undefined`. -/
def JSValue.undef : JSValue := .prim .undefined

/-! ## Number arithmetic (IEEE 754 binary64 on integer values) -/

/-- The integer nearest to `p / q`, ties going to the even one. -/
def roundNearestEven (p q : Nat) : Nat :=
  let f := p / q
  let r := p % q
  if 2 * r < q then f
  else if q < 2 * r then f + 1
  else if f % 2 = 0 then f else f + 1

/-- The number of bits of `n` beyond 53: the least `e` with `n / 2 ^ e < 2 ^ 53`
when `fuel` is at least that large (`n` itself always is). -/
def excessBits : Nat → Nat → Nat
  | 0, _ => 0
  | fuel + 1, n => if n < 2 ^ 53 then 0 else excessBits fuel (n / 2) + 1

/-- The double nearest to the integer `z` (round to nearest, ties to even):
integers below `2 ^ 53` in magnitude are doubles; a larger one keeps its 53
leading bits; a result of magnitude `2 ^ 1024` or more (one of more than 1024
bits, that is with at least 972 bits beyond 53) is an infinity. -/
def roundDouble (z : Int) : JSNumber :=
  let n := z.natAbs
  if n < 2 ^ 53 then .fin z
  else
    let e := excessBits n n
    let m := roundNearestEven n (2 ^ e) * 2 ^ e
    if 972 ≤ excessBits m m then .inf (decide (z < 0))
    else .fin (if z < 0 then -(m : Int) else (m : Int))

/-- Unary minus on numbers. -/
def JSNumber.neg : JSNumber → JSNumber
  | .nan => .nan
  | .inf s => .inf (!s)
  | .fin z => .fin (-z)

/-- The sum of two numbers (`Number::add`). -/
def JSNumber.add : JSNumber → JSNumber → JSNumber
  | .nan, _ => .nan
  | _, .nan => .nan
  | .inf s, .inf t => if s = t then .inf s else .nan
  | .inf s, .fin _ => .inf s
  | .fin _, .inf t => .inf t
  | .fin a, .fin b => roundDouble (a + b)

/-- The difference of two numbers (`Number::subtract`): `x - y` is `x + (-y)`. -/
def JSNumber.sub (x y : JSNumber) : JSNumber := x.add y.neg

/-! ## Conversions and operators -/

/-- The abstract operation `ToBoolean`. -/
def toBoolean : JSValue → Bool
  | .prim .undefined => false
  | .prim .null => false
  | .prim (.bool b) => b
  | .prim (.num .nan) => false
  | .prim (.num (.inf _)) => true
  | .prim (.num (.fin z)) => decide (z ≠ 0)
  | .prim (.str s) => decide (s ≠ "")
  | .obj _ => true

/-- Whether an object has an own property `key`. -/
def hasField (fields : List (String × JSValue)) (key : String) : Bool :=
  (fields.lookup key).isSome

/-- The abstract operation `ToPrimitive` (without a string hint).  For a plain
object `valueOf` is tried first and `toString` second: the inherited `valueOf`
returns the object itself, the inherited `toString` returns
`"[object Object]"`, and an own property of either name shadows the inherited
method with a value that is not callable, which is skipped. -/
def toPrimitive : JSValue → Except JSError JSPrim
  | .prim p => .ok p
  | .obj fields =>
    if hasField fields "toString" then .error .typeError
    else .ok (.str "[object Object]")

/-- The abstract operation `ToNumber` on a primitive. -/
def toNumber (host : Host) : JSPrim → JSNumber
  | .undefined => .nan
  | .null => .fin 0
  | .bool b => if b then .fin 1 else .fin 0
  | .num n => n
  | .str s => host.stringToNumber s

/-- The abstract operation `ToString` on a primitive. -/
def toStr (host : Host) : JSPrim → String
  | .undefined => "undefined"
  | .null => "null"
  | .bool b => if b then "true" else "false"
  | .num n => host.numberToString n
  | .str s => s

/-- Whether a primitive is a string. -/
def JSPrim.isStr : JSPrim → Bool
  | .str _ => true
  | _ => false

/-- The operator `+`: string concatenation when either operand is a string
after `ToPrimitive`, numeric addition otherwise. -/
def jsAdd (host : Host) (l r : JSValue) : Except JSError JSValue := do
  let lp ← toPrimitive l
  let rp ← toPrimitive r
  if lp.isStr || rp.isStr then
    pure (.prim (.str (toStr host lp ++ toStr host rp)))
  else
    pure (.prim (.num ((toNumber host lp).add (toNumber host rp))))

/-- The operator `-`: both operands are converted with `ToNumber`. -/
def jsSub (host : Host) (l r : JSValue) : Except JSError JSValue := do
  let lp ← toPrimitive l
  let rp ← toPrimitive r
  pure (.prim (.num ((toNumber host lp).sub (toNumber host rp))))

/-- The operator `||`. -/
def jsOr (l r : JSValue) : JSValue := if toBoolean l then l else r

/-- Strict equality `===` on primitives: `NaN` differs from itself. -/
def strictEq (a b : JSPrim) : Bool :=
  match a, b with
  | .num .nan, _ => false
  | _, .num .nan => false
  | a, b => decide (a = b)

/-! ## Property access -/

/-- Reading property `key` of `v`, for a `key` that no built-in prototype
defines (the program reads `initialBalance`, `amount` and `balance`): a
`TypeError` on `undefined` and `null`, `undefined` on the other primitives and
on an object without that own property. -/
def getProp (v : JSValue) (key : String) : Except JSError JSValue :=
  match v with
  | .prim .undefined => .error .typeError
  | .prim .null => .error .typeError
  | .prim _ => .ok JSValue.undef
  | .obj fields => .ok ((fields.lookup key).getD JSValue.undef)

/-- An object's properties after the assignment of `val` to `key`: an existing
property keeps its place, a new one is added last. -/
def setField : List (String × JSValue) → String → JSValue → List (String × JSValue)
  | [], key, val => [(key, val)]
  | (k, v) :: rest, key, val =>
    if k = key then (k, val) :: rest else (k, v) :: setField rest key val

/-- The assignment `v.key = val` in strict mode (a class body is strict code):
a `TypeError` unless `v` is an object. -/
def setProp (v : JSValue) (key : String) (val : JSValue) : Except JSError JSValue :=
  match v with
  | .prim _ => .error .typeError
  | .obj fields => .ok (.obj (setField fields key val))

/-! ## `JSON.parse(JSON.stringify(v))` -/

mutual
/-- The value that `JSON.stringify` writes for `v` and `JSON.parse` reads back,
or `none` when `v` has no JSON text (`undefined`): `NaN` and the infinities are
written as `null`. -/
def jsonValue : JSValue → Option JSValue
  | .prim .undefined => none
  | .prim (.num (.fin z)) => some (.prim (.num (.fin z)))
  | .prim (.num _) => some (.prim .null)
  | .prim p => some (.prim p)
  | .obj fields => some (.obj (jsonFields fields))
/-- The properties written for an object: one whose value is `undefined` is
left out. -/
def jsonFields : List (String × JSValue) → List (String × JSValue)
  | [] => []
  | (k, v) :: rest =>
    match jsonValue v with
    | none => jsonFields rest
    | some w => (k, w) :: jsonFields rest
end

/-- The expression `JSON.parse(JSON.stringify(v))`: for `undefined` the inner
call returns `undefined`, which `JSON.parse` rejects with a `SyntaxError`. -/
def jsonRoundTrip (v : JSValue) : Except JSError JSValue :=
  match jsonValue v with
  | none => .error .syntaxError
  | some w => .ok w

/-! ## The event store -/

/-- An event record, as built by `recordEvent`. -/
structure EventRecord where
  eventId : Nat
  aggregateId : JSPrim
  eventType : JSPrim
  timestamp : Int
  payload : JSValue

/-- The fields of an `EventStore` instance. -/
structure EventStore where
  eventStream : List EventRecord
  nextEventId : Nat

/-- The constructor: an empty log, the next id is 1. -/
def EventStore.constructor : EventStore :=
  { eventStream := [], nextEventId := 1 }

/-- The method `recordEvent`, with `now` the value of `Date.now()`: the new
store and the record returned. -/
def EventStore.recordEvent (s : EventStore) (aggregateId eventType : JSPrim)
    (payload : JSValue) (now : Int) : EventStore × EventRecord :=
  let event : EventRecord :=
    { eventId := s.nextEventId
      aggregateId := aggregateId
      eventType := eventType
      timestamp := now
      payload := payload }
  ({ eventStream := s.eventStream ++ [event], nextEventId := s.nextEventId + 1 }, event)

/-- The body of the `switch` in `rebuildState`: the state after one event. -/
def applyEvent (host : Host) (state : JSValue) (event : EventRecord) :
    Except JSError JSValue :=
  if event.eventType = .str "AccountCreated" then do
    let state ← setProp state "status" (JSValue.ofString "active")
    let initialBalance ← getProp event.payload "initialBalance"
    setProp state "balance" (jsOr initialBalance (JSValue.ofInt 0))
  else if event.eventType = .str "BalanceCredited" then do
    let balance ← getProp state "balance"
    let amount ← getProp event.payload "amount"
    let sum ← jsAdd host balance amount
    setProp state "balance" sum
  else if event.eventType = .str "FundsWithdrawn" then do
    let balance ← getProp state "balance"
    let amount ← getProp event.payload "amount"
    let difference ← jsSub host balance amount
    setProp state "balance" difference
  else
    pure state

/-- The `for ... of` loop of `rebuildState`. -/
def replay (host : Host) (state : JSValue) : List EventRecord → Except JSError JSValue
  | [] => .ok state
  | event :: rest =>
    match applyEvent host state event with
    | .error e => .error e
    | .ok state => replay host state rest

/-- The method `rebuildState`: the state returned, or the exception raised. -/
def EventStore.rebuildState (host : Host) (s : EventStore) (aggregateId : JSPrim)
    (initialBaseState : JSValue) : Except JSError JSValue :=
  let events := s.eventStream.filter (fun e => strictEq e.aggregateId aggregateId)
  match jsonRoundTrip initialBaseState with
  | .error e => .error e
  | .ok state => replay host state events

/-! ## Sequences of calls -/

/-- A call of one of the two methods of an `EventStore`. -/
inductive Call
  | recordEvent (aggregateId eventType : JSPrim) (payload : JSValue) (now : Int)
  | rebuildState (aggregateId : JSPrim) (initialBaseState : JSValue)

/-- What a call hands back: the record `recordEvent` returns, or the outcome of
`rebuildState`. -/
inductive Reply
  | recorded (event : EventRecord)
  | rebuilt (result : Except JSError JSValue)

/-- One call on a store: the store after it and the reply.  An exception of
`rebuildState` leaves the caller free to go on with the same store. -/
def EventStore.call (host : Host) (s : EventStore) : Call → EventStore × Reply
  | .recordEvent aggregateId eventType payload now =>
    let r := s.recordEvent aggregateId eventType payload now
    (r.1, .recorded r.2)
  | .rebuildState aggregateId initialBaseState =>
    (s, .rebuilt (s.rebuildState host aggregateId initialBaseState))

/-- A sequence of calls on a store: the final store and the replies in call
order. -/
def EventStore.run (host : Host) (s : EventStore) : List Call → EventStore × List Reply
  | [] => (s, [])
  | c :: cs =>
    let r := s.call host c
    let rs := r.1.run host cs
    (rs.1, r.2 :: rs.2)

/-- The `eventId`s of the records returned by the `recordEvent` calls, in call
order. -/
def returnedIds : List Reply → List Nat
  | [] => []
  | .recorded event :: rest => event.eventId :: returnedIds rest
  | .rebuilt _ :: rest => returnedIds rest

/-- Whether a call appends to the aggregate `aggregateId` (an append under an
id that `===` tells from `aggregateId` does not). -/
def Call.appendsTo (aggregateId : JSPrim) : Call → Bool
  | .recordEvent a _ _ _ => strictEq a aggregateId
  | .rebuildState _ _ => false

/-- The four `recordEvent` calls of the demonstration at the end of the file,
made on a new store at the times `t1` to `t4`. -/
def demonstration (t1 t2 t3 t4 : Int) : EventStore :=
  let eventStore := EventStore.constructor
  let eventStore := (eventStore.recordEvent (.str "User-101") (.str "AccountCreated")
    (.obj [("initialBalance", JSValue.ofInt 100)]) t1).1
  let eventStore := (eventStore.recordEvent (.str "User-101") (.str "BalanceCredited")
    (.obj [("amount", JSValue.ofInt 50)]) t2).1
  let eventStore := (eventStore.recordEvent (.str "User-101") (.str "FundsWithdrawn")
    (.obj [("amount", JSValue.ofInt 20)]) t3).1
  (eventStore.recordEvent (.str "User-102") (.str "AccountCreated")
    (.obj [("initialBalance", JSValue.ofInt 500)]) t4).1

/-! ## Object identity: the caller's seed and the working state

The values above are immutable trees.  To tell the object the caller passes as
`initialBaseState` from the object `rebuildState` works on, objects live in a
heap: a list of cells, one per object, holding the object's current contents.
`JSON.parse` creates a new object, so its result goes to a new cell, and the
assignments of the loop write to the cell that `state` refers to. -/

/-- The heap: cell `i` holds the current contents of the object at address `i`. -/
abbrev Heap := List JSValue

/-- The loop of `rebuildState` on the object at address `ref`: each event reads
the object and writes its new contents back.  When an event raises, the loop
stops; the object at `ref` is then no longer referred to by anyone. -/
def replayAt (host : Host) (heap : Heap) (ref : Nat) :
    List EventRecord → Heap × Except JSError Nat
  | [] => (heap, .ok ref)
  | event :: rest =>
    match applyEvent host (heap.getD ref JSValue.undef) event with
    | .error e => (heap, .error e)
    | .ok state => replayAt host (heap.set ref state) ref rest

/-- The method `rebuildState` on a heap, with `initialBaseState` the object at
address `seedRef`: the heap after the call and the address of the state
returned, or the exception raised. -/
def EventStore.rebuildStateAt (host : Host) (s : EventStore) (aggregateId : JSPrim)
    (heap : Heap) (seedRef : Nat) : Heap × Except JSError Nat :=
  let events := s.eventStream.filter (fun e => strictEq e.aggregateId aggregateId)
  match jsonRoundTrip (heap.getD seedRef JSValue.undef) with
  | .error e => (heap, .error e)
  | .ok state => replayAt host (heap ++ [state]) heap.length events

/-- A host for evaluating examples: integers are written in decimal, and a
string is read as the integer it spells, or as `NaN`. -/
def sampleHost : Host where
  numberToString
    | .nan => "NaN"
    | .inf s => if s then "-Infinity" else "Infinity"
    | .fin z => toString z
  stringToNumber s :=
    match s.toInt? with
    | some z => .fin z
    | none => .nan

/-! ## Relations between logs and conditions on values used in the statements -/

/-- Two records agree on `aggregateId`, `eventType` and `payload` (they may
differ in `eventId` and `timestamp`). -/
def sameContent (e₁ e₂ : EventRecord) : Prop :=
  e₁.aggregateId = e₂.aggregateId ∧ e₁.eventType = e₂.eventType ∧ e₁.payload = e₂.payload

mutual
/-- A value that JSON text represents as it is: `null`, a boolean, a finite
number, a string, or an object all of whose property values are such values
(no `undefined`, `NaN` or infinity anywhere in it). -/
def isJSON : JSValue → Bool
  | .prim .undefined => false
  | .prim (.num .nan) => false
  | .prim (.num (.inf _)) => false
  | .prim _ => true
  | .obj fields => isJSONFields fields
/-- All the property values of an object are JSON values. -/
def isJSONFields : List (String × JSValue) → Bool
  | [] => true
  | (_, v) :: rest => isJSON v && isJSONFields rest
end

/-- A value that `ToPrimitive` converts without raising: a primitive, or an
object that has no property named `toString`. -/
def convertible : JSValue → Bool
  | .prim _ => true
  | .obj fields => fields.all (fun kv => kv.1 != "toString")

/-- Every property of `fields` with a name in `keys` has a convertible value. -/
def operandsConvertible (fields : List (String × JSValue)) (keys : List String) : Prop :=
  ∀ kv ∈ fields, kv.1 ∈ keys → convertible kv.2 = true

/-- A credit or a withdrawal of an integer amount. -/
inductive Movement
  | credit (amount : Int)
  | withdrawal (amount : Int)

/-- The record `e` is the movement `m`: a `BalanceCredited` (or
`FundsWithdrawn`) event whose payload has the integer as `amount`. -/
def Movement.describes (m : Movement) (e : EventRecord) : Prop :=
  match m with
  | .credit c =>
    e.eventType = .str "BalanceCredited" ∧ getProp e.payload "amount" = .ok (JSValue.ofInt c)
  | .withdrawal w =>
    e.eventType = .str "FundsWithdrawn" ∧ getProp e.payload "amount" = .ok (JSValue.ofInt w)

/-- The sum `c1 + ... + cm` of the credited amounts. -/
def creditTotal : List Movement → Int
  | [] => 0
  | .credit c :: rest => c + creditTotal rest
  | .withdrawal _ :: rest => creditTotal rest

/-- The sum `w1 + ... + wn` of the withdrawn amounts. -/
def withdrawalTotal : List Movement → Int
  | [] => 0
  | .credit _ :: rest => withdrawalTotal rest
  | .withdrawal w :: rest => w + withdrawalTotal rest

/-- The exact balances met along a sequence of movements, in order, starting
with the balance `b` before the first. -/
def runningBalances (b : Int) : List Movement → List Int
  | [] => [b]
  | .credit c :: rest => b :: runningBalances (b + c) rest
  | .withdrawal w :: rest => b :: runningBalances (b - w) rest

/-! ## The store in memory: payloads held by reference

`recordEvent` stores in the record the payload object it is given, not a copy,
so the contents of a logged payload live in the caller's heap.  Here the
fields of the store instance come with that heap, a record holds the address
of its payload, and `rebuildState` is a transformer of the whole memory: it
reads `eventStream` and the payloads, creates the working state and assigns to
it.  Nested objects are kept by value in the cell of the object that holds
them; `rebuildState` assigns only to properties of the working state itself. -/

/-- A record of the log, its `payload` the address of the payload object. -/
structure StoredEvent where
  eventId : Nat
  aggregateId : JSPrim
  eventType : JSPrim
  timestamp : Int
  payload : Nat

/-- The fields of the store instance and the heap its records refer to. -/
structure Memory where
  eventStream : List StoredEvent
  nextEventId : Nat
  heap : Heap

/-- A stored record with the current contents of its payload. -/
def StoredEvent.read (heap : Heap) (e : StoredEvent) : EventRecord :=
  { eventId := e.eventId
    aggregateId := e.aggregateId
    eventType := e.eventType
    timestamp := e.timestamp
    payload := heap.getD e.payload JSValue.undef }

/-- The store read from memory: every record with the current contents of its
payload. -/
def Memory.store (m : Memory) : EventStore :=
  { eventStream := m.eventStream.map (StoredEvent.read m.heap)
    nextEventId := m.nextEventId }

/-- The method `recordEvent` in memory, with the payload at address `payload`. -/
def Memory.recordEvent (m : Memory) (aggregateId eventType : JSPrim) (payload : Nat)
    (now : Int) : Memory × StoredEvent :=
  let event : StoredEvent :=
    { eventId := m.nextEventId
      aggregateId := aggregateId
      eventType := eventType
      timestamp := now
      payload := payload }
  ({ m with eventStream := m.eventStream ++ [event], nextEventId := m.nextEventId + 1 }, event)

/-- The loop of `rebuildState` in memory, the working state at address
`stateRef`: each event reads the state and the event's payload from the heap
and writes the new state back. -/
def Memory.replay (host : Host) (m : Memory) (stateRef : Nat) :
    List StoredEvent → Memory × Except JSError Nat
  | [] => (m, .ok stateRef)
  | event :: rest =>
    match applyEvent host (m.heap.getD stateRef JSValue.undef) (event.read m.heap) with
    | .error e => (m, .error e)
    | .ok state => Memory.replay host { m with heap := m.heap.set stateRef state } stateRef rest

/-- The method `rebuildState` in memory, with `initialBaseState` the object at
address `seedRef`: the memory after the call and the address of the state
returned, or the exception raised. -/
def Memory.rebuildState (host : Host) (m : Memory) (aggregateId : JSPrim) (seedRef : Nat) :
    Memory × Except JSError Nat :=
  let events := m.eventStream.filter (fun e => strictEq e.aggregateId aggregateId)
  match jsonRoundTrip (m.heap.getD seedRef JSValue.undef) with
  | .error e => (m, .error e)
  | .ok state => Memory.replay host { m with heap := m.heap ++ [state] } m.heap.length events

/-- A memory for examples: the payloads `{initialBalance: 100}` and
`{amount: 50}` at addresses 0 and 1, logged for `User-101`, and the seed
`{status:'pending', balance:0}` at address 2. -/
def sampleMemory : Memory :=
  (((Memory.mk [] 1
      [.obj [("initialBalance", JSValue.ofInt 100)], .obj [("amount", JSValue.ofInt 50)],
        .obj [("status", JSValue.ofString "pending"), ("balance", JSValue.ofInt 0)]]).recordEvent
      (.str "User-101") (.str "AccountCreated") 0 1).1.recordEvent
      (.str "User-101") (.str "BalanceCredited") 1 2).1

/-! # Theorems -/

/-! ## C1: the demonstration -/

/-- C1: on a new store, after the four `recordEvent` calls of the demonstration
(whatever the times stamped), `rebuildState('User-101', {status:'pending',
balance:0})` returns exactly `{status:'active', balance:130}` and
`rebuildState('User-102', {status:'pending', balance:0})` returns exactly
`{status:'active', balance:500}`. -/
theorem demonstration_rebuildState (host : Host) (t1 t2 t3 t4 : Int) :
    (demonstration t1 t2 t3 t4).rebuildState host (.str "User-101")
        (.obj [("status", JSValue.ofString "pending"), ("balance", JSValue.ofInt 0)])
      = .ok (.obj [("status", JSValue.ofString "active"), ("balance", JSValue.ofInt 130)])
    ∧ (demonstration t1 t2 t3 t4).rebuildState host (.str "User-102")
        (.obj [("status", JSValue.ofString "pending"), ("balance", JSValue.ofInt 0)])
      = .ok (.obj [("status", JSValue.ofString "active"), ("balance", JSValue.ofInt 500)]) :=
  ⟨rfl, rfl⟩

/-! ## C2, C3: event ids -/

theorem call_recordEvent (host : Host) (s : EventStore) (a t : JSPrim) (p : JSValue)
    (now : Int) :
    s.call host (.recordEvent a t p now)
      = ((s.recordEvent a t p now).1, .recorded (s.recordEvent a t p now).2) := rfl

theorem call_rebuildState (host : Host) (s : EventStore) (a : JSPrim) (seed : JSValue) :
    s.call host (.rebuildState a seed) = (s, .rebuilt (s.rebuildState host a seed)) := rfl

theorem run_nil (host : Host) (s : EventStore) : s.run host [] = (s, []) := rfl

theorem run_cons (host : Host) (s : EventStore) (c : Call) (cs : List Call) :
    s.run host (c :: cs)
      = (((s.call host c).1.run host cs).1,
          (s.call host c).2 :: ((s.call host c).1.run host cs).2) := rfl

theorem run_append (host : Host) (s : EventStore) (cs ds : List Call) :
    s.run host (cs ++ ds)
      = (((s.run host cs).1.run host ds).1,
          (s.run host cs).2 ++ ((s.run host cs).1.run host ds).2) := by
  induction cs generalizing s with
  | nil => simp [run_nil]
  | cons c cs ih => simp [run_cons, ih]

/-- Every id returned during a run is at least the counter the run started
with. -/
theorem returnedIds_run_ge (host : Host) (s : EventStore) (calls : List Call) :
    ∀ i ∈ returnedIds (s.run host calls).2, s.nextEventId ≤ i := by
  induction calls generalizing s with
  | nil => simp [run_nil, returnedIds]
  | cons c cs ih =>
    cases c with
    | recordEvent a t p now =>
      intro i hi
      simp only [run_cons, call_recordEvent, returnedIds, List.mem_cons] at hi
      rcases hi with rfl | hi
      · exact Nat.le_refl _
      · have := ih _ i hi
        simp only [EventStore.recordEvent] at this
        omega
    | rebuildState a seed =>
      intro i hi
      simp only [run_cons, call_rebuildState, returnedIds] at hi
      exact ih _ i hi

/-- The ids returned during a run are strictly increasing in call order. -/
theorem returnedIds_run_pairwise (host : Host) (s : EventStore) (calls : List Call) :
    (returnedIds (s.run host calls).2).Pairwise (· < ·) := by
  induction calls generalizing s with
  | nil => simp [run_nil, returnedIds]
  | cons c cs ih =>
    cases c with
    | recordEvent a t p now =>
      simp only [run_cons, call_recordEvent, returnedIds, List.pairwise_cons]
      refine ⟨?_, ih _⟩
      intro i hi
      have := returnedIds_run_ge host _ cs i hi
      simp only [EventStore.recordEvent] at this ⊢
      omega
    | rebuildState a seed =>
      simp only [run_cons, call_rebuildState, returnedIds]
      exact ih _

/-- C2 (append monotonicity): on every store reached from the constructor by a
sequence `before` of calls, in every further sequence `calls` of `recordEvent`
and `rebuildState` calls the `eventId`s of the records returned are strictly
increasing in call order, and no two of them are equal. -/
theorem recordEvent_ids_strictly_increasing (host : Host) (before calls : List Call) :
    (returnedIds ((EventStore.constructor.run host before).1.run host calls).2).Pairwise
        (· < ·)
    ∧ (returnedIds ((EventStore.constructor.run host before).1.run host calls).2).Nodup := by
  have h := returnedIds_run_pairwise host (EventStore.constructor.run host before).1 calls
  exact ⟨h, h.imp (fun hlt => Nat.ne_of_lt hlt)⟩

/-- The ids of a log are `1, 2, ...` and the counter is one more than its
length: kept by every call. -/
theorem call_ids (host : Host) (s : EventStore) (c : Call)
    (hids : s.eventStream.map (·.eventId) = List.range' 1 s.eventStream.length)
    (hnext : s.nextEventId = s.eventStream.length + 1) :
    (s.call host c).1.eventStream.map (·.eventId)
        = List.range' 1 (s.call host c).1.eventStream.length
    ∧ (s.call host c).1.nextEventId = (s.call host c).1.eventStream.length + 1 := by
  cases c with
  | recordEvent a t p now =>
    simp only [call_recordEvent, EventStore.recordEvent, List.map_append, List.map_cons,
      List.map_nil, List.length_append, List.length_singleton, hids, hnext]
    refine ⟨?_, trivial⟩
    rw [List.range'_concat]
    simp [Nat.add_comm]
  | rebuildState a seed => exact ⟨hids, hnext⟩

theorem run_ids (host : Host) (s : EventStore) (calls : List Call)
    (hids : s.eventStream.map (·.eventId) = List.range' 1 s.eventStream.length)
    (hnext : s.nextEventId = s.eventStream.length + 1) :
    (s.run host calls).1.eventStream.map (·.eventId)
        = List.range' 1 (s.run host calls).1.eventStream.length
    ∧ (s.run host calls).1.nextEventId = (s.run host calls).1.eventStream.length + 1 := by
  induction calls generalizing s with
  | nil => exact ⟨hids, hnext⟩
  | cons c cs ih =>
    obtain ⟨h1, h2⟩ := call_ids host s c hids hnext
    exact ih _ h1 h2

/-- C3 (log id invariant): in every store reached from the constructor by a
sequence of `recordEvent` and `rebuildState` calls, the `eventId`s of
`eventStream` are `1, 2, ..., length` in log order (the record at 1-based
position `i` has `eventId` `i`), hence strictly increasing, and `nextEventId`
is `eventStream.length + 1`. -/
theorem log_ids_invariant (host : Host) (calls : List Call) :
    (EventStore.constructor.run host calls).1.eventStream.map (·.eventId)
        = List.range' 1 (EventStore.constructor.run host calls).1.eventStream.length
    ∧ (∀ i : Nat, ((EventStore.constructor.run host calls).1.eventStream.get? i).map
          (·.eventId)
        = if i < (EventStore.constructor.run host calls).1.eventStream.length
          then some (i + 1) else none)
    ∧ ((EventStore.constructor.run host calls).1.eventStream.map (·.eventId)).Pairwise
        (· < ·)
    ∧ (EventStore.constructor.run host calls).1.nextEventId
        = (EventStore.constructor.run host calls).1.eventStream.length + 1 := by
  obtain ⟨h1, h2⟩ := run_ids host EventStore.constructor calls rfl rfl
  refine ⟨h1, ?_, ?_, h2⟩
  · intro i
    have h := congrArg (fun l => l.get? i) h1
    simp only [List.get?_eq_getElem?, List.getElem?_map] at h ⊢
    rw [h]
    by_cases hi : i < (EventStore.constructor.run host calls).1.eventStream.length
    · rw [if_pos hi, List.getElem?_range' _ _ hi]
      simp [Nat.add_comm]
    · rw [if_neg hi]
      exact List.getElem?_eq_none (by simpa using hi)
  · rw [h1]
    exact List.pairwise_lt_range' 1 _

/-! ## C4: isolation across aggregates -/

theorem strictEq_eq_false_of_ne {a b : JSPrim} (h : a ≠ b) : strictEq a b = false := by
  unfold strictEq
  split <;> simp [h]

/-- The method `rebuildState` reads the log only through the records of the
requested aggregate. -/
theorem rebuildState_congr (host : Host) (s s' : EventStore) (A : JSPrim) (seed : JSValue)
    (h : s'.eventStream.filter (fun e => strictEq e.aggregateId A)
      = s.eventStream.filter (fun e => strictEq e.aggregateId A)) :
    s'.rebuildState host A seed = s.rebuildState host A seed := by
  simp only [EventStore.rebuildState, h]

theorem filter_recordEvent_of_strictEq_false (s : EventStore) (A B t : JSPrim) (p : JSValue)
    (now : Int) (h : strictEq B A = false) :
    (s.recordEvent B t p now).1.eventStream.filter (fun e => strictEq e.aggregateId A)
      = s.eventStream.filter (fun e => strictEq e.aggregateId A) := by
  simp [EventStore.recordEvent, List.filter_append, List.filter_cons, h]

theorem filter_run_of_not_appendsTo (host : Host) (s : EventStore) (A : JSPrim)
    (calls : List Call) (h : ∀ c ∈ calls, c.appendsTo A = false) :
    (s.run host calls).1.eventStream.filter (fun e => strictEq e.aggregateId A)
      = s.eventStream.filter (fun e => strictEq e.aggregateId A) := by
  induction calls generalizing s with
  | nil => rfl
  | cons c cs ih =>
    have hc := h c (List.mem_cons_self _ _)
    have hcs : ∀ d ∈ cs, d.appendsTo A = false := fun d hd => h d (List.mem_cons_of_mem _ hd)
    rw [run_cons]
    simp only
    rw [ih _ hcs]
    cases c with
    | recordEvent a t p now =>
      exact filter_recordEvent_of_strictEq_false s A a t p now hc
    | rebuildState a seed => rfl

/-- C4 (isolation across aggregates): for every store, seed and distinct
aggregate ids `A` and `B`, appending any event under `B` with `recordEvent`
leaves `rebuildState(A, seed)` as it was; and so does any sequence of calls
whose appends are all to aggregates other than `A`. -/
theorem rebuildState_isolated (host : Host) (s : EventStore) (seed : JSValue)
    (A B eventType : JSPrim) (payload : JSValue) (now : Int) (calls : List Call)
    (hAB : A ≠ B)
    (hcalls : ∀ a t p n, Call.recordEvent a t p n ∈ calls → a ≠ A) :
    (s.recordEvent B eventType payload now).1.rebuildState host A seed
      = s.rebuildState host A seed
    ∧ (s.run host calls).1.rebuildState host A seed = s.rebuildState host A seed := by
  constructor
  · exact rebuildState_congr host s _ A seed
      (filter_recordEvent_of_strictEq_false s A B eventType payload now
        (strictEq_eq_false_of_ne (Ne.symm hAB)))
  · refine rebuildState_congr host s _ A seed (filter_run_of_not_appendsTo host s A calls ?_)
    intro c hc
    cases c with
    | recordEvent a t p n => exact strictEq_eq_false_of_ne (hcalls a t p n hc)
    | rebuildState a sd => rfl

/-- Witness of C4: `User-101` after appends under `User-102`. -/
theorem rebuildState_isolated_witness :
    JSPrim.str "User-101" ≠ JSPrim.str "User-102"
    ∧ ((demonstration 1 2 3 4).recordEvent (.str "User-102") (.str "BalanceCredited")
          (.obj [("amount", JSValue.ofInt 7)]) 5).1.rebuildState sampleHost (.str "User-101")
          (.obj [("balance", JSValue.ofInt 0)])
        = (demonstration 1 2 3 4).rebuildState sampleHost (.str "User-101")
          (.obj [("balance", JSValue.ofInt 0)])
    ∧ ((demonstration 1 2 3 4).run sampleHost
          [.recordEvent (.str "User-102") (.str "FundsWithdrawn")
              (.obj [("amount", JSValue.ofInt 9)]) 6,
            .rebuildState (.str "User-101") JSValue.undef,
            .recordEvent (.str "User-103") (.str "AccountCreated") JSValue.undef 7]).1.rebuildState
          sampleHost (.str "User-101") (.obj [("balance", JSValue.ofInt 0)])
        = (demonstration 1 2 3 4).rebuildState sampleHost (.str "User-101")
          (.obj [("balance", JSValue.ofInt 0)]) :=
  ⟨by decide,
    rebuildState_isolated sampleHost (demonstration 1 2 3 4) (.obj [("balance", JSValue.ofInt 0)])
      (.str "User-101") (.str "User-102") (.str "BalanceCredited")
      (.obj [("amount", JSValue.ofInt 7)]) 5 _ (by decide)
      (by
        intro a t p n h
        simp only [List.mem_cons, Call.recordEvent.injEq, List.mem_singleton, List.mem_nil_iff,
          or_false, false_or] at h
        rcases h with ⟨rfl, -⟩ | h | ⟨rfl, -⟩
        · decide
        · exact absurd h (by simp)
        · decide)⟩

/-! ## C5: unknown event types -/

theorem replay_nil (host : Host) (state : JSValue) : replay host state [] = .ok state := rfl

theorem replay_cons (host : Host) (state : JSValue) (event : EventRecord)
    (rest : List EventRecord) :
    replay host state (event :: rest)
      = match applyEvent host state event with
        | .error e => .error e
        | .ok state => replay host state rest := rfl

theorem replay_append (host : Host) (state : JSValue) (l₁ l₂ : List EventRecord) :
    replay host state (l₁ ++ l₂)
      = match replay host state l₁ with
        | .error e => .error e
        | .ok state => replay host state l₂ := by
  induction l₁ generalizing state with
  | nil => rfl
  | cons event rest ih =>
    simp only [List.cons_append, replay_cons]
    cases applyEvent host state event with
    | error e => rfl
    | ok state' => exact ih state'

/-- An event whose type is none of the three handled ones leaves the state as
it is, whatever the state and the payload. -/
theorem applyEvent_of_unknown (host : Host) (state : JSValue) (event : EventRecord)
    (h1 : event.eventType ≠ .str "AccountCreated")
    (h2 : event.eventType ≠ .str "BalanceCredited")
    (h3 : event.eventType ≠ .str "FundsWithdrawn") :
    applyEvent host state event = .ok state := by
  simp only [applyEvent, if_neg h1, if_neg h2, if_neg h3]
  rfl

theorem replay_insert_unknown (host : Host) (state : JSValue) (event : EventRecord)
    (l₁ l₂ : List EventRecord)
    (h1 : event.eventType ≠ .str "AccountCreated")
    (h2 : event.eventType ≠ .str "BalanceCredited")
    (h3 : event.eventType ≠ .str "FundsWithdrawn") :
    replay host state (l₁ ++ event :: l₂) = replay host state (l₁ ++ l₂) := by
  rw [replay_append, replay_append]
  cases replay host state l₁ with
  | error e => rfl
  | ok state' => simp only [replay_cons, applyEvent_of_unknown host state' event h1 h2 h3]

theorem rebuildState_insert_unknown (host : Host) (pre post : List EventRecord)
    (next next' : Nat) (event : EventRecord) (A : JSPrim) (seed : JSValue)
    (h1 : event.eventType ≠ .str "AccountCreated")
    (h2 : event.eventType ≠ .str "BalanceCredited")
    (h3 : event.eventType ≠ .str "FundsWithdrawn") :
    EventStore.rebuildState host ⟨pre ++ event :: post, next'⟩ A seed
      = EventStore.rebuildState host ⟨pre ++ post, next⟩ A seed := by
  simp only [EventStore.rebuildState, List.filter_append, List.filter_cons]
  cases jsonRoundTrip seed with
  | error e => rfl
  | ok state =>
    simp only
    split
    · exact replay_insert_unknown host state event _ _ h1 h2 h3
    · rfl

/-- C5 (unknown event type tolerance): for every store, aggregate id `A`, seed
and payload, and every `eventType` other than `'AccountCreated'`,
`'BalanceCredited'` and `'FundsWithdrawn'`, `rebuildState(A, seed)` after
`recordEvent(A, eventType, payload)` is what it was before (the same state, or
the same exception: the event adds no failure); and a record of such a type
inserted at any position of the log, under any aggregate id, leaves every
`rebuildState` result unchanged. -/
theorem rebuildState_unknown_eventType (host : Host) (s : EventStore) (A eventType : JSPrim)
    (seed payload : JSValue) (now : Int) (pre post : List EventRecord) (next id : Nat)
    (a : JSPrim) (time : Int)
    (h1 : eventType ≠ .str "AccountCreated")
    (h2 : eventType ≠ .str "BalanceCredited")
    (h3 : eventType ≠ .str "FundsWithdrawn") :
    (s.recordEvent A eventType payload now).1.rebuildState host A seed
      = s.rebuildState host A seed
    ∧ EventStore.rebuildState host
        ⟨pre ++ ⟨id, a, eventType, time, payload⟩ :: post, next⟩ A seed
      = EventStore.rebuildState host ⟨pre ++ post, next⟩ A seed := by
  constructor
  · have h := rebuildState_insert_unknown host s.eventStream [] s.nextEventId
      (s.nextEventId + 1) ⟨s.nextEventId, A, eventType, now, payload⟩ A seed h1 h2 h3
    simpa [EventStore.recordEvent] using h
  · exact rebuildState_insert_unknown host pre post next next ⟨id, a, eventType, time, payload⟩
      A seed h1 h2 h3

/-- Witness of C5: an event of type `SomethingUnrecognized` with no payload. -/
theorem rebuildState_unknown_eventType_witness :
    ((demonstration 1 2 3 4).recordEvent (.str "User-101") (.str "SomethingUnrecognized")
        JSValue.undef 5).1.rebuildState sampleHost (.str "User-101")
        (.obj [("status", JSValue.ofString "pending"), ("balance", JSValue.ofInt 0)])
      = (demonstration 1 2 3 4).rebuildState sampleHost (.str "User-101")
        (.obj [("status", JSValue.ofString "pending"), ("balance", JSValue.ofInt 0)])
    ∧ EventStore.rebuildState sampleHost
        ⟨(demonstration 1 2 3 4).eventStream.take 1
          ++ ⟨9, .str "User-101", .str "SomethingUnrecognized", 5, JSValue.undef⟩
            :: (demonstration 1 2 3 4).eventStream.drop 1, 5⟩
        (.str "User-101")
        (.obj [("status", JSValue.ofString "pending"), ("balance", JSValue.ofInt 0)])
      = EventStore.rebuildState sampleHost
        ⟨(demonstration 1 2 3 4).eventStream.take 1
          ++ (demonstration 1 2 3 4).eventStream.drop 1, 5⟩
        (.str "User-101")
        (.obj [("status", JSValue.ofString "pending"), ("balance", JSValue.ofInt 0)]) :=
  rebuildState_unknown_eventType sampleHost (demonstration 1 2 3 4) (.str "User-101")
    (.str "SomethingUnrecognized")
    (.obj [("status", JSValue.ofString "pending"), ("balance", JSValue.ofInt 0)])
    JSValue.undef 5 _ _ 5 9 (.str "User-101") 5 (by decide) (by decide) (by decide)

/-! ## C6, C7: the log under `recordEvent` -/

theorem eventStream_kept_by_run (host : Host) (s : EventStore) (calls : List Call) :
    s.eventStream <+: (s.run host calls).1.eventStream := by
  induction calls generalizing s with
  | nil => exact List.prefix_refl _
  | cons c cs ih =>
    rw [run_cons]
    refine List.IsPrefix.trans ?_ (ih _)
    cases c with
    | recordEvent a t p now => exact List.prefix_append _ _
    | rebuildState a seed => exact List.prefix_refl _

theorem get?_of_earlier_part {α : Type} {l₁ l₂ : List α} (h : l₁ <+: l₂) (i : Nat)
    (hi : i < l₁.length) : l₂.get? i = l₁.get? i := by
  obtain ⟨t, rfl⟩ := h
  simp only [List.get?_eq_getElem?]
  exact List.getElem?_append_left hi

/-- C6 (append-only log): after `recordEvent` the `eventStream` is the one
before with exactly one record, the one returned, added at the end, so every
earlier record is still there at its position with all its fields; and
through any sequence of `recordEvent` and `rebuildState` calls the log before
stays a prefix of the log after: no record is removed, moved or changed. -/
theorem eventStream_append_only (host : Host) (s : EventStore) (aggregateId eventType : JSPrim)
    (payload : JSValue) (now : Int) (calls : List Call) :
    (s.recordEvent aggregateId eventType payload now).1.eventStream
      = s.eventStream ++ [(s.recordEvent aggregateId eventType payload now).2]
    ∧ (s.recordEvent aggregateId eventType payload now).1.eventStream.length
      = s.eventStream.length + 1
    ∧ (∀ i, i < s.eventStream.length →
        (s.recordEvent aggregateId eventType payload now).1.eventStream.get? i
          = s.eventStream.get? i)
    ∧ s.eventStream <+: (s.run host calls).1.eventStream
    ∧ (∀ i, i < s.eventStream.length →
        (s.run host calls).1.eventStream.get? i = s.eventStream.get? i) := by
  refine ⟨rfl, by simp [EventStore.recordEvent], ?_, eventStream_kept_by_run host s calls, ?_⟩
  · intro i hi
    exact get?_of_earlier_part (List.prefix_append _ _) i hi
  · intro i hi
    exact get?_of_earlier_part (eventStream_kept_by_run host s calls) i hi

/-- C7 (returned record): `recordEvent(aggregateId, eventType, payload)` returns
a record whose `aggregateId`, `eventType` and `payload` are the arguments,
whose `eventId` is `nextEventId` before the call and whose `timestamp` is the
time of the call; that record is the last element of `eventStream` after the
call. -/
theorem recordEvent_returned_record (s : EventStore) (aggregateId eventType : JSPrim)
    (payload : JSValue) (now : Int) :
    (s.recordEvent aggregateId eventType payload now).2.aggregateId = aggregateId
    ∧ (s.recordEvent aggregateId eventType payload now).2.eventType = eventType
    ∧ (s.recordEvent aggregateId eventType payload now).2.payload = payload
    ∧ (s.recordEvent aggregateId eventType payload now).2.eventId = s.nextEventId
    ∧ (s.recordEvent aggregateId eventType payload now).2.timestamp = now
    ∧ (s.recordEvent aggregateId eventType payload now).1.eventStream.getLast?
      = some (s.recordEvent aggregateId eventType payload now).2
    ∧ (s.recordEvent aggregateId eventType payload now).2
      ∈ (s.recordEvent aggregateId eventType payload now).1.eventStream := by
  refine ⟨rfl, rfl, rfl, rfl, rfl, ?_, ?_⟩ <;> simp [EventStore.recordEvent]

/-! ## C9: the seed object is not written -/

theorem replayAt_nil (host : Host) (heap : Heap) (ref : Nat) :
    replayAt host heap ref [] = (heap, .ok ref) := rfl

theorem replayAt_cons (host : Host) (heap : Heap) (ref : Nat) (event : EventRecord)
    (rest : List EventRecord) :
    replayAt host heap ref (event :: rest)
      = match applyEvent host (heap.getD ref JSValue.undef) event with
        | .error e => (heap, .error e)
        | .ok state => replayAt host (heap.set ref state) ref rest := rfl

/-- The loop writes to no cell but the one of its working state. -/
theorem replayAt_get?_of_ne (host : Host) (heap : Heap) (ref : Nat)
    (events : List EventRecord) (i : Nat) (hi : i ≠ ref) :
    (replayAt host heap ref events).1.get? i = heap.get? i := by
  induction events generalizing heap with
  | nil => rfl
  | cons event rest ih =>
    rw [replayAt_cons]
    cases applyEvent host (heap.getD ref JSValue.undef) event with
    | error e => rfl
    | ok state =>
      simp only
      rw [ih]
      simp only [List.get?_eq_getElem?]
      exact List.getElem?_set_ne (Ne.symm hi)

/-- The address returned by the loop is the one it was given. -/
theorem replayAt_ref (host : Host) (heap : Heap) (ref : Nat) (events : List EventRecord)
    (r : Nat) (h : (replayAt host heap ref events).2 = .ok r) : r = ref := by
  induction events generalizing heap with
  | nil =>
    simp only [replayAt_nil, Except.ok.injEq] at h
    exact h.symm
  | cons event rest ih =>
    rw [replayAt_cons] at h
    cases hap : applyEvent host (heap.getD ref JSValue.undef) event with
    | error e =>
      rw [hap] at h
      exact absurd h (by simp)
    | ok state =>
      rw [hap] at h
      exact ih _ h

/-- The loop on the heap computes, in the cell of the working state, what the
loop on values computes. -/
theorem replayAt_eq_replay (host : Host) (heap : Heap) (ref : Nat)
    (events : List EventRecord) (href : ref < heap.length) :
    (replayAt host heap ref events).2.map
        (fun r => (replayAt host heap ref events).1.getD r JSValue.undef)
      = replay host (heap.getD ref JSValue.undef) events := by
  induction events generalizing heap with
  | nil => rfl
  | cons event rest ih =>
    rw [replayAt_cons, replay_cons]
    cases applyEvent host (heap.getD ref JSValue.undef) event with
    | error e => rfl
    | ok state =>
      simp only
      rw [ih (heap.set ref state) (by simpa using href)]
      congr 1
      simp [List.getD_eq_getElem?_getD, List.getElem?_set_self href]

/-- C9 (seed non-mutation): with `initialBaseState` the object at address
`seedRef` of the caller's heap, after `rebuildState` (returning or raising)
every object of the heap before the call, the seed among them, has the
contents it had before; the state returned is a new object, at an address
that was not in the heap (so it is not the seed), and it holds the state that
`rebuildState` computes from the seed's contents, with whatever `status` and
`balance` the events gave it. -/
theorem rebuildState_seed_unchanged (host : Host) (s : EventStore) (aggregateId : JSPrim)
    (heap : Heap) (seedRef : Nat) :
    (∀ i, i < heap.length →
        (s.rebuildStateAt host aggregateId heap seedRef).1.get? i = heap.get? i)
    ∧ (s.rebuildStateAt host aggregateId heap seedRef).1.getD seedRef JSValue.undef
      = heap.getD seedRef JSValue.undef
    ∧ (∀ ref, (s.rebuildStateAt host aggregateId heap seedRef).2 = .ok ref →
        ref = heap.length ∧ (seedRef < heap.length → ref ≠ seedRef))
    ∧ (s.rebuildStateAt host aggregateId heap seedRef).2.map
        (fun ref => (s.rebuildStateAt host aggregateId heap seedRef).1.getD ref JSValue.undef)
      = s.rebuildState host aggregateId (heap.getD seedRef JSValue.undef) := by
  have hold : ∀ i, i < heap.length →
      (s.rebuildStateAt host aggregateId heap seedRef).1.get? i = heap.get? i := by
    intro i hi
    simp only [EventStore.rebuildStateAt]
    cases jsonRoundTrip (heap.getD seedRef JSValue.undef) with
    | error e => rfl
    | ok state =>
      simp only
      rw [replayAt_get?_of_ne host _ _ _ i (Nat.ne_of_lt hi)]
      simp only [List.get?_eq_getElem?]
      exact List.getElem?_append_left hi
  refine ⟨hold, ?_, ?_, ?_⟩
  · by_cases hs : seedRef < heap.length
    · have h := hold seedRef hs
      simp only [List.get?_eq_getElem?] at h
      simp only [List.getD_eq_getElem?_getD, h]
    · have hundef : heap.getD seedRef JSValue.undef = JSValue.undef := by
        simp only [List.getD_eq_getElem?_getD, List.getElem?_eq_none (Nat.le_of_not_lt hs),
          Option.getD_none]
      have hj : jsonRoundTrip JSValue.undef = .error .syntaxError := rfl
      rw [EventStore.rebuildStateAt, hundef, hj]
      exact hundef
  · intro ref href
    rw [EventStore.rebuildStateAt] at href
    cases hj : jsonRoundTrip (heap.getD seedRef JSValue.undef) with
    | error e =>
      rw [hj] at href
      exact absurd href (by simp)
    | ok state =>
      rw [hj] at href
      have := replayAt_ref host _ _ _ ref href
      exact ⟨this, fun hs => by omega⟩
  · simp only [EventStore.rebuildStateAt, EventStore.rebuildState]
    cases jsonRoundTrip (heap.getD seedRef JSValue.undef) with
    | error e => rfl
    | ok state =>
      simp only
      rw [replayAt_eq_replay host _ _ _ (by simp)]
      simp [List.getD_eq_getElem?_getD]

/-- The demonstration on a heap: the seed `{status:'pending', balance:0}` at
address 0 keeps its contents while the state returned, at the new address 1,
is `{status:'active', balance:130}`. -/
theorem rebuildStateAt_demonstration (host : Host) (t1 t2 t3 t4 : Int) :
    (demonstration t1 t2 t3 t4).rebuildStateAt host (.str "User-101")
        [.obj [("status", JSValue.ofString "pending"), ("balance", JSValue.ofInt 0)]] 0
      = ([.obj [("status", JSValue.ofString "pending"), ("balance", JSValue.ofInt 0)],
          .obj [("status", JSValue.ofString "active"), ("balance", JSValue.ofInt 130)]],
        .ok 1) := rfl

/-! ## C10: the `AccountCreated` rule -/

theorem lookup_setField_self (fields : List (String × JSValue)) (key : String)
    (val : JSValue) : (setField fields key val).lookup key = some val := by
  induction fields with
  | nil => simp [setField, List.lookup]
  | cons kv rest ih =>
    obtain ⟨k, v⟩ := kv
    by_cases hk : k = key
    · subst hk
      simp [setField, List.lookup]
    · have hbeq : (key == k) = false := by simpa using Ne.symm hk
      simp [setField, hk, List.lookup, hbeq, ih]

theorem lookup_setField_of_ne (fields : List (String × JSValue)) (key other : String)
    (val : JSValue) (h : other ≠ key) :
    (setField fields key val).lookup other = fields.lookup other := by
  induction fields with
  | nil =>
    have hbeq : (other == key) = false := by simpa using h
    simp [setField, List.lookup, hbeq]
  | cons kv rest ih =>
    obtain ⟨k, v⟩ := kv
    by_cases hk : k = key
    · subst hk
      have hbeq : (other == k) = false := by simpa using h
      simp [setField, List.lookup, hbeq]
    · by_cases ho : other = k
      · subst ho
        simp [setField, hk, List.lookup]
      · have hbeq : (other == k) = false := by simpa using ho
        simp [setField, hk, List.lookup, hbeq, ih]

/-- The `AccountCreated` branch on an object state, for a payload whose
`initialBalance` reads as `v`. -/
theorem accountCreated_branch_eq (host : Host) (fields : List (String × JSValue))
    (event : EventRecord) (v : JSValue)
    (htype : event.eventType = .str "AccountCreated")
    (hpayload : getProp event.payload "initialBalance" = .ok v) :
    applyEvent host (.obj fields) event
      = .ok (.obj (setField (setField fields "status" (JSValue.ofString "active")) "balance"
          (jsOr v (JSValue.ofInt 0)))) := by
  simp only [applyEvent, if_pos htype, setProp, hpayload]
  rfl

/-- C10, as stated, fails: for an `AccountCreated` event whose payload has the
field `initialBalance` with the value `null`, replayed on the seed `{}`, the
rebuilt state is `{status:'active', balance:0}`: its `balance` is `0`, not the
payload's `initialBalance`. -/
theorem accountCreated_null_initialBalance :
    hasField [("initialBalance", JSValue.prim .null)] "initialBalance" = true
    ∧ (EventStore.constructor.recordEvent (.str "User-101") (.str "AccountCreated")
          (.obj [("initialBalance", JSValue.prim .null)]) 0).1.rebuildState sampleHost
          (.str "User-101") (.obj [])
        = .ok (.obj [("status", JSValue.ofString "active"), ("balance", JSValue.ofInt 0)])
    ∧ applyEvent sampleHost (.obj [])
          ⟨1, .str "User-101", .str "AccountCreated", 0,
            .obj [("initialBalance", JSValue.prim .null)]⟩
        = .ok (.obj [("status", JSValue.ofString "active"), ("balance", JSValue.ofInt 0)])
    ∧ getProp (.obj [("status", JSValue.ofString "active"), ("balance", JSValue.ofInt 0)])
          "balance"
        ≠ getProp (.obj [("initialBalance", JSValue.prim .null)]) "initialBalance" := by
  refine ⟨rfl, rfl, rfl, ?_⟩
  intro h
  simp [getProp, List.lookup, JSValue.ofInt] at h

/-- C10, amended: for every accumulator state that is an object and every
`AccountCreated` event whose payload is not `undefined` or `null` (so that
`payload.initialBalance` reads as some value `v`, `undefined` when the field is
absent), the state after the event is an object with `status = 'active'`, with
`balance = payload.initialBalance` when that value is truthy, and with
`balance = 0` when it is falsy (`undefined`, `null`, `false`, `0`, `NaN`, `''`),
in particular when the payload is an object without that field. -/
theorem applyEvent_accountCreated (host : Host) (fields : List (String × JSValue))
    (event : EventRecord) (v : JSValue)
    (htype : event.eventType = .str "AccountCreated")
    (hpayload : getProp event.payload "initialBalance" = .ok v) :
    ∃ fields', applyEvent host (.obj fields) event = .ok (.obj fields')
      ∧ getProp (.obj fields') "status" = .ok (JSValue.ofString "active")
      ∧ (toBoolean v = true → getProp (.obj fields') "balance" = .ok v)
      ∧ (toBoolean v = false → getProp (.obj fields') "balance" = .ok (JSValue.ofInt 0))
      ∧ (∀ payloadFields, event.payload = .obj payloadFields →
          hasField payloadFields "initialBalance" = false →
          getProp (.obj fields') "balance" = .ok (JSValue.ofInt 0)) := by
  refine ⟨_, accountCreated_branch_eq host fields event v htype hpayload, ?_, ?_, ?_, ?_⟩
  · simp only [getProp]
    rw [lookup_setField_of_ne _ _ _ _ (by decide), lookup_setField_self]
    rfl
  · intro hv
    simp only [getProp, lookup_setField_self, jsOr, hv, if_true, Option.getD_some]
  · intro hv
    simp only [getProp, lookup_setField_self, jsOr, hv, Option.getD_some]
    rfl
  · intro payloadFields hp hno
    have hv : v = JSValue.undef := by
      rw [hp] at hpayload
      simp only [getProp, Except.ok.injEq] at hpayload
      simp only [hasField] at hno
      cases hl : payloadFields.lookup "initialBalance" with
      | none =>
        rw [hl] at hpayload
        exact hpayload.symm
      | some w =>
        rw [hl] at hno
        exact absurd hno (by simp)
    subst hv
    simp only [getProp, lookup_setField_self, jsOr, Option.getD_some]
    rfl

/-- Witness of C10 (amended): `{initialBalance: 100}` applied to
`{status:'pending', balance:0}`. -/
theorem applyEvent_accountCreated_witness :
    ∃ fields', applyEvent sampleHost
          (.obj [("status", JSValue.ofString "pending"), ("balance", JSValue.ofInt 0)])
          ⟨1, .str "User-101", .str "AccountCreated", 0,
            .obj [("initialBalance", JSValue.ofInt 100)]⟩
        = .ok (.obj fields')
      ∧ getProp (.obj fields') "status" = .ok (JSValue.ofString "active")
      ∧ (toBoolean (JSValue.ofInt 100) = true →
          getProp (.obj fields') "balance" = .ok (JSValue.ofInt 100))
      ∧ (toBoolean (JSValue.ofInt 100) = false →
          getProp (.obj fields') "balance" = .ok (JSValue.ofInt 0))
      ∧ (∀ payloadFields,
          JSValue.obj [("initialBalance", JSValue.ofInt 100)] = .obj payloadFields →
          hasField payloadFields "initialBalance" = false →
          getProp (.obj fields') "balance" = .ok (JSValue.ofInt 0)) :=
  applyEvent_accountCreated sampleHost
    [("status", JSValue.ofString "pending"), ("balance", JSValue.ofInt 0)]
    ⟨1, .str "User-101", .str "AccountCreated", 0, .obj [("initialBalance", JSValue.ofInt 100)]⟩
    (JSValue.ofInt 100) rfl rfl

/-! ## C11: the credit and withdrawal rules -/

theorem roundDouble_of_natAbs_lt (z : Int) (h : z.natAbs < 2 ^ 53) :
    roundDouble z = .fin z := by
  simp only [roundDouble, if_pos h]

/-- An integer of magnitude at most `2 ^ 53` is a double. -/
theorem roundDouble_of_natAbs_le (z : Int) (h : z.natAbs ≤ 2 ^ 53) :
    roundDouble z = .fin z := by
  rcases Nat.lt_or_ge z.natAbs (2 ^ 53) with hlt | hge
  · exact roundDouble_of_natAbs_lt z hlt
  · have heq : z.natAbs = 2 ^ 53 := Nat.le_antisymm h hge
    rcases Int.natAbs_eq z with hz | hz
    · rw [heq] at hz
      rw [hz]
      decide
    · rw [heq] at hz
      rw [hz]
      decide

theorem strictEq_str_self (name : String) : strictEq (.str name) (.str name) = true := by
  simp [strictEq]

/-- After an append under `A`, with `A === A`, the rebuilt state of `A` is the
state rebuilt before with the new record applied last. -/
theorem rebuildState_recordEvent_self (host : Host) (s : EventStore) (A eventType : JSPrim)
    (payload seed : JSValue) (now : Int) (hA : strictEq A A = true) :
    (s.recordEvent A eventType payload now).1.rebuildState host A seed
      = match s.rebuildState host A seed with
        | .error e => .error e
        | .ok state => applyEvent host state ⟨s.nextEventId, A, eventType, now, payload⟩ := by
  simp only [EventStore.rebuildState, EventStore.recordEvent, List.filter_append,
    List.filter_cons, hA, if_true, List.filter_nil]
  cases jsonRoundTrip seed with
  | error e => rfl
  | ok state =>
    simp only [replay_append]
    cases replay host state
        (s.eventStream.filter (fun e => strictEq e.aggregateId A)) with
    | error e => rfl
    | ok state' =>
      simp only [replay_cons, replay_nil]
      cases applyEvent host state' ⟨s.nextEventId, A, eventType, now, payload⟩ <;> rfl

/-- The `BalanceCredited` branch on an object state whose `balance` is the
integer `b`, for a payload whose `amount` is the integer `a`. -/
theorem balanceCredited_branch_eq (host : Host) (fields : List (String × JSValue))
    (event : EventRecord) (b a : Int)
    (htype : event.eventType = .str "BalanceCredited")
    (hbalance : fields.lookup "balance" = some (JSValue.ofInt b))
    (hamount : getProp event.payload "amount" = .ok (JSValue.ofInt a)) :
    applyEvent host (.obj fields) event
      = .ok (.obj (setField fields "balance" (.prim (.num (roundDouble (b + a)))))) := by
  have h1 : event.eventType ≠ .str "AccountCreated" := by rw [htype]; decide
  have hb : getProp (.obj fields) "balance" = .ok (JSValue.ofInt b) := by
    simp only [getProp, hbalance, Option.getD_some]
  rw [applyEvent, if_neg h1, if_pos htype, hb, hamount]
  rfl

/-- The `FundsWithdrawn` branch on an object state whose `balance` is the
integer `b`, for a payload whose `amount` is the integer `a`. -/
theorem fundsWithdrawn_branch_eq (host : Host) (fields : List (String × JSValue))
    (event : EventRecord) (b a : Int)
    (htype : event.eventType = .str "FundsWithdrawn")
    (hbalance : fields.lookup "balance" = some (JSValue.ofInt b))
    (hamount : getProp event.payload "amount" = .ok (JSValue.ofInt a)) :
    applyEvent host (.obj fields) event
      = .ok (.obj (setField fields "balance" (.prim (.num (roundDouble (b - a)))))) := by
  have h1 : event.eventType ≠ .str "AccountCreated" := by rw [htype]; decide
  have h2 : event.eventType ≠ .str "BalanceCredited" := by rw [htype]; decide
  have hb : getProp (.obj fields) "balance" = .ok (JSValue.ofInt b) := by
    simp only [getProp, hbalance, Option.getD_some]
  rw [applyEvent, if_neg h1, if_neg h2, if_pos htype, hb, hamount]
  rfl

/-- C11, as stated, fails: with the seed `{balance: 9007199254740992}` (the
integer `2 ^ 53`) on a new store, `rebuildState` has that integer balance; after
`recordEvent('User-101', 'BalanceCredited', {amount: 1})` the rebuilt balance is
still `9007199254740992`, not `9007199254740992 + 1`, which is not a double. -/
theorem balanceCredited_beyond_safe_integers :
    EventStore.constructor.rebuildState sampleHost (.str "User-101")
        (.obj [("balance", JSValue.ofInt 9007199254740992)])
      = .ok (.obj [("balance", JSValue.ofInt 9007199254740992)])
    ∧ (EventStore.constructor.recordEvent (.str "User-101") (.str "BalanceCredited")
          (.obj [("amount", JSValue.ofInt 1)]) 0).1.rebuildState sampleHost (.str "User-101")
          (.obj [("balance", JSValue.ofInt 9007199254740992)])
        = .ok (.obj [("balance", JSValue.ofInt 9007199254740992)])
    ∧ JSValue.ofInt 9007199254740992 ≠ JSValue.ofInt (9007199254740992 + 1) := by
  refine ⟨rfl, rfl, ?_⟩
  intro h
  simp [JSValue.ofInt] at h

/-- C11, amended: when `rebuildState(A, seed)` returns an object whose `balance`
is the integer `b`, then for every integer `a` with `b + a` of magnitude at most
`2 ^ 53`, after `recordEvent(A, 'BalanceCredited', {amount: a})` the call
`rebuildState(A, seed)` returns the same object with `balance` set to `b + a`;
and for every integer `a` with `b - a` of magnitude at most `2 ^ 53`, after
`recordEvent(A, 'FundsWithdrawn', {amount: a})` instead it returns the same
object with `balance` set to `b - a`.  Setting `balance` leaves every other
field (`status` among them) with the value it had. -/
theorem rebuildState_credit_withdrawal (host : Host) (s : EventStore) (name : String)
    (seed : JSValue) (fields : List (String × JSValue)) (b a now : Int)
    (hstate : s.rebuildState host (.str name) seed = .ok (.obj fields))
    (hbalance : fields.lookup "balance" = some (JSValue.ofInt b)) :
    ((b + a).natAbs ≤ 2 ^ 53 →
        (s.recordEvent (.str name) (.str "BalanceCredited")
            (.obj [("amount", JSValue.ofInt a)]) now).1.rebuildState host (.str name) seed
          = .ok (.obj (setField fields "balance" (JSValue.ofInt (b + a)))))
    ∧ ((b - a).natAbs ≤ 2 ^ 53 →
        (s.recordEvent (.str name) (.str "FundsWithdrawn")
            (.obj [("amount", JSValue.ofInt a)]) now).1.rebuildState host (.str name) seed
          = .ok (.obj (setField fields "balance" (JSValue.ofInt (b - a)))))
    ∧ (∀ v, getProp (.obj (setField fields "balance" v)) "balance" = .ok v)
    ∧ (∀ v key, key ≠ "balance" →
        getProp (.obj (setField fields "balance" v)) key = getProp (.obj fields) key) := by
  refine ⟨?_, ?_, ?_, ?_⟩
  · intro hsafe
    rw [rebuildState_recordEvent_self host s _ _ _ _ _ (strictEq_str_self name), hstate]
    simp only
    rw [balanceCredited_branch_eq host fields
        ⟨s.nextEventId, .str name, .str "BalanceCredited", now,
          .obj [("amount", JSValue.ofInt a)]⟩ b a rfl hbalance rfl,
      roundDouble_of_natAbs_le _ hsafe]
    rfl
  · intro hsafe
    rw [rebuildState_recordEvent_self host s _ _ _ _ _ (strictEq_str_self name), hstate]
    simp only
    rw [fundsWithdrawn_branch_eq host fields
        ⟨s.nextEventId, .str name, .str "FundsWithdrawn", now,
          .obj [("amount", JSValue.ofInt a)]⟩ b a rfl hbalance rfl,
      roundDouble_of_natAbs_le _ hsafe]
    rfl
  · intro v
    simp only [getProp, lookup_setField_self, Option.getD_some]
  · intro v key hkey
    simp only [getProp, lookup_setField_of_ne _ _ _ _ hkey]

/-- Witness of C11 (amended): a credit and a withdrawal of 7 on the
demonstration's `User-101`, whose balance is 130. -/
theorem rebuildState_credit_withdrawal_witness :
    (((130 : Int) + 7).natAbs ≤ 2 ^ 53 →
        ((demonstration 1 2 3 4).recordEvent (.str "User-101") (.str "BalanceCredited")
            (.obj [("amount", JSValue.ofInt 7)]) 5).1.rebuildState sampleHost (.str "User-101")
            (.obj [("status", JSValue.ofString "pending"), ("balance", JSValue.ofInt 0)])
          = .ok (.obj (setField
              [("status", JSValue.ofString "active"), ("balance", JSValue.ofInt 130)]
              "balance" (JSValue.ofInt (130 + 7)))))
    ∧ (((130 : Int) - 7).natAbs ≤ 2 ^ 53 →
        ((demonstration 1 2 3 4).recordEvent (.str "User-101") (.str "FundsWithdrawn")
            (.obj [("amount", JSValue.ofInt 7)]) 5).1.rebuildState sampleHost (.str "User-101")
            (.obj [("status", JSValue.ofString "pending"), ("balance", JSValue.ofInt 0)])
          = .ok (.obj (setField
              [("status", JSValue.ofString "active"), ("balance", JSValue.ofInt 130)]
              "balance" (JSValue.ofInt (130 - 7)))))
    ∧ (∀ v, getProp (.obj (setField
          [("status", JSValue.ofString "active"), ("balance", JSValue.ofInt 130)]
          "balance" v)) "balance" = .ok v)
    ∧ (∀ v key, key ≠ "balance" →
        getProp (.obj (setField
          [("status", JSValue.ofString "active"), ("balance", JSValue.ofInt 130)]
          "balance" v)) key
        = getProp (.obj [("status", JSValue.ofString "active"), ("balance", JSValue.ofInt 130)])
          key) :=
  rebuildState_credit_withdrawal sampleHost (demonstration 1 2 3 4) "User-101"
    (.obj [("status", JSValue.ofString "pending"), ("balance", JSValue.ofInt 0)])
    [("status", JSValue.ofString "active"), ("balance", JSValue.ofInt 130)] 130 7 5 rfl rfl

/-! ## C12: a payload without `amount` -/

/-- C12 on the code: after `recordEvent('User-101', 'AccountCreated',
{initialBalance: 100})` and `recordEvent('User-101', 'BalanceCredited', {})` on
a new store, `rebuildState('User-101', {status:'pending', balance:0})` returns
`{status:'active', balance: NaN}`: the missing `amount` reads as `undefined`
and `100 + undefined` is `NaN`, where the `AccountCreated` branch turns a
missing `initialBalance` into `0`.  The same holds for `FundsWithdrawn`. -/
theorem missing_amount_gives_NaN :
    ((EventStore.constructor.recordEvent (.str "User-101") (.str "AccountCreated")
          (.obj [("initialBalance", JSValue.ofInt 100)]) 0).1.recordEvent (.str "User-101")
          (.str "BalanceCredited") (.obj []) 1).1.rebuildState sampleHost (.str "User-101")
        (.obj [("status", JSValue.ofString "pending"), ("balance", JSValue.ofInt 0)])
      = .ok (.obj [("status", JSValue.ofString "active"), ("balance", .prim (.num .nan))])
    ∧ ((EventStore.constructor.recordEvent (.str "User-101") (.str "AccountCreated")
          (.obj [("initialBalance", JSValue.ofInt 100)]) 0).1.recordEvent (.str "User-101")
          (.str "FundsWithdrawn") (.obj []) 1).1.rebuildState sampleHost (.str "User-101")
        (.obj [("status", JSValue.ofString "pending"), ("balance", JSValue.ofInt 0)])
      = .ok (.obj [("status", JSValue.ofString "active"), ("balance", .prim (.num .nan))])
    ∧ (EventStore.constructor.recordEvent (.str "User-101") (.str "AccountCreated")
          (.obj []) 0).1.rebuildState sampleHost (.str "User-101")
        (.obj [("status", JSValue.ofString "pending"), ("balance", JSValue.ofInt 0)])
      = .ok (.obj [("status", JSValue.ofString "active"), ("balance", JSValue.ofInt 0)]) :=
  ⟨rfl, rfl, rfl⟩

/-! ## C13, C14: `recordEvent` accepts every argument -/

/-- C13 (`recordEvent` has no error path): for every store and all arguments
(an empty string, `undefined` or anything else as `aggregateId`, `eventType` or
`payload`), the call replies with a record, `eventStream` grows by exactly one
record and `nextEventId` grows by exactly 1. -/
theorem recordEvent_never_fails (host : Host) (s : EventStore) (aggregateId eventType : JSPrim)
    (payload : JSValue) (now : Int) :
    (s.call host (.recordEvent aggregateId eventType payload now)).2
      = .recorded (s.recordEvent aggregateId eventType payload now).2
    ∧ (s.recordEvent aggregateId eventType payload now).1.eventStream.length
      = s.eventStream.length + 1
    ∧ (s.recordEvent aggregateId eventType payload now).1.nextEventId = s.nextEventId + 1
    ∧ (s.recordEvent .undefined (.str "") JSValue.undef now).1.eventStream.length
      = s.eventStream.length + 1
    ∧ (s.recordEvent (.str "") .undefined (.obj []) now).1.nextEventId = s.nextEventId + 1 := by
  refine ⟨rfl, ?_, rfl, ?_, rfl⟩ <;> simp [EventStore.recordEvent]

/-- C14, as stated, fails: `recordEvent('', undefined, undefined)` on a new
store is not rejected; the call replies with a record, and afterwards the log
holds one record and `nextEventId` is 2, so the store has changed. -/
theorem recordEvent_accepts_empty_aggregateId :
    (EventStore.constructor.call sampleHost (.recordEvent (.str "") .undefined JSValue.undef 0)).2
      = .recorded ⟨1, .str "", .undefined, 0, JSValue.undef⟩
    ∧ (EventStore.constructor.recordEvent (.str "") .undefined JSValue.undef 0).1.eventStream.length
      = 1
    ∧ EventStore.constructor.eventStream.length = 0
    ∧ (EventStore.constructor.recordEvent (.str "") .undefined JSValue.undef 0).1.nextEventId = 2
    ∧ EventStore.constructor.nextEventId = 1 :=
  ⟨rfl, rfl, rfl, rfl, rfl⟩

/-- C14, amended: when `recordEvent` is called with an empty or missing
`aggregateId` or `eventType`, the call is accepted like any other: it returns a
record carrying these values as they are, the record is added at the end of
`eventStream`, and `nextEventId` is incremented. -/
theorem recordEvent_accepts_invalid_arguments (s : EventStore) (aggregateId eventType : JSPrim)
    (payload : JSValue) (now : Int)
    (h : aggregateId = .str "" ∨ aggregateId = .undefined
      ∨ eventType = .str "" ∨ eventType = .undefined) :
    (s.recordEvent aggregateId eventType payload now).2
      = ⟨s.nextEventId, aggregateId, eventType, now, payload⟩
    ∧ (s.recordEvent aggregateId eventType payload now).1.eventStream
      = s.eventStream ++ [⟨s.nextEventId, aggregateId, eventType, now, payload⟩]
    ∧ (s.recordEvent aggregateId eventType payload now).1.nextEventId = s.nextEventId + 1 := by
  rcases h with _ | _ | _ | _ <;> exact ⟨rfl, rfl, rfl⟩

/-- Witness of C14 (amended): an empty `aggregateId` and a missing `eventType`. -/
theorem recordEvent_accepts_invalid_arguments_witness :
    (EventStore.constructor.recordEvent (.str "") .undefined (.obj []) 7).2
      = ⟨1, .str "", .undefined, 7, .obj []⟩
    ∧ (EventStore.constructor.recordEvent (.str "") .undefined (.obj []) 7).1.eventStream
      = EventStore.constructor.eventStream ++ [⟨1, .str "", .undefined, 7, .obj []⟩]
    ∧ (EventStore.constructor.recordEvent (.str "") .undefined (.obj []) 7).1.nextEventId
      = EventStore.constructor.nextEventId + 1 :=
  recordEvent_accepts_invalid_arguments EventStore.constructor (.str "") .undefined (.obj []) 7
    (Or.inl rfl)

/-! ## C17: replay ignores `eventId` and `timestamp` -/

/-- The `switch` reads only the `eventType` and the `payload` of an event. -/
theorem applyEvent_congr (host : Host) (state : JSValue) (e₁ e₂ : EventRecord)
    (htype : e₁.eventType = e₂.eventType) (hpayload : e₁.payload = e₂.payload) :
    applyEvent host state e₁ = applyEvent host state e₂ := by
  simp only [applyEvent, htype, hpayload]

theorem replay_filter_congr (host : Host) (A : JSPrim) (log₁ log₂ : List EventRecord)
    (h : List.Forall₂ sameContent log₁ log₂) (state : JSValue) :
    replay host state (log₁.filter (fun e => strictEq e.aggregateId A))
      = replay host state (log₂.filter (fun e => strictEq e.aggregateId A)) := by
  induction h generalizing state with
  | nil => rfl
  | cons hab _ ih =>
    obtain ⟨hid, htype, hpayload⟩ := hab
    simp only [List.filter_cons, hid]
    split
    · simp only [replay_cons, applyEvent_congr host state _ _ htype hpayload]
      cases applyEvent host state _ with
      | error e => rfl
      | ok state' => exact ih state'
    · exact ih state

/-- C17 (replay ignores `eventId` and `timestamp`): for two logs of the same
length whose records agree position by position on `aggregateId`, `eventType`
and `payload`, `rebuildState` gives equal results on both for every aggregate
id and seed; in particular the time stamped by `recordEvent` has no influence
on a rebuilt state. -/
theorem rebuildState_ignores_eventId_timestamp (host : Host) (log₁ log₂ : List EventRecord)
    (next₁ next₂ : Nat) (A : JSPrim) (seed : JSValue) (s : EventStore)
    (aggregateId eventType : JSPrim) (payload : JSValue) (now now' : Int)
    (h : List.Forall₂ sameContent log₁ log₂) :
    log₁.length = log₂.length
    ∧ EventStore.rebuildState host ⟨log₁, next₁⟩ A seed
      = EventStore.rebuildState host ⟨log₂, next₂⟩ A seed
    ∧ (s.recordEvent aggregateId eventType payload now).1.rebuildState host A seed
      = (s.recordEvent aggregateId eventType payload now').1.rebuildState host A seed := by
  refine ⟨h.length_eq, ?_, ?_⟩
  · simp only [EventStore.rebuildState]
    cases jsonRoundTrip seed with
    | error e => rfl
    | ok state => exact replay_filter_congr host A log₁ log₂ h state
  · simp only [EventStore.rebuildState, EventStore.recordEvent]
    cases jsonRoundTrip seed with
    | error e => rfl
    | ok state =>
      refine replay_filter_congr host A _ _ ?_ state
      refine List.rel_append (List.forall₂_same.2 (fun _ _ => ⟨rfl, rfl, rfl⟩)) ?_
      exact List.Forall₂.cons ⟨rfl, rfl, rfl⟩ List.Forall₂.nil

/-- Witness of C17: the demonstration's log stamped at two different series of
times, the second with other ids as well. -/
theorem rebuildState_ignores_eventId_timestamp_witness :
    (demonstration 1 2 3 4).eventStream.length
      = ((demonstration 10 20 30 40).eventStream.map
          (fun e => { e with eventId := e.eventId + 100 })).length
    ∧ EventStore.rebuildState sampleHost ⟨(demonstration 1 2 3 4).eventStream, 5⟩
        (.str "User-101") (.obj [("balance", JSValue.ofInt 0)])
      = EventStore.rebuildState sampleHost
        ⟨(demonstration 10 20 30 40).eventStream.map
          (fun e => { e with eventId := e.eventId + 100 }), 105⟩
        (.str "User-101") (.obj [("balance", JSValue.ofInt 0)])
    ∧ (EventStore.constructor.recordEvent (.str "User-101") (.str "AccountCreated")
          (.obj [("initialBalance", JSValue.ofInt 5)]) 1).1.rebuildState sampleHost
          (.str "User-101") (.obj [("balance", JSValue.ofInt 0)])
      = (EventStore.constructor.recordEvent (.str "User-101") (.str "AccountCreated")
          (.obj [("initialBalance", JSValue.ofInt 5)]) 2).1.rebuildState sampleHost
          (.str "User-101") (.obj [("balance", JSValue.ofInt 0)]) :=
  rebuildState_ignores_eventId_timestamp sampleHost _ _ 5 105 (.str "User-101")
    (.obj [("balance", JSValue.ofInt 0)]) EventStore.constructor (.str "User-101")
    (.str "AccountCreated") (.obj [("initialBalance", JSValue.ofInt 5)]) 1 2
    (by
      simp only [demonstration, EventStore.recordEvent, EventStore.constructor, List.nil_append,
        List.cons_append, List.map_cons, List.map_nil]
      repeat first
        | exact List.Forall₂.nil
        | refine List.Forall₂.cons ⟨rfl, rfl, rfl⟩ ?_)

/-! ## C15: an aggregate without events -/

mutual
/-- The JSON copy of a JSON value is that value. -/
theorem jsonValue_of_isJSON : ∀ (v : JSValue), isJSON v = true → jsonValue v = some v
  | .prim .undefined, h => by simp [isJSON] at h
  | .prim .null, _ => rfl
  | .prim (.bool _), _ => rfl
  | .prim (.str _), _ => rfl
  | .prim (.num .nan), h => by simp [isJSON] at h
  | .prim (.num (.inf _)), h => by simp [isJSON] at h
  | .prim (.num (.fin _)), _ => rfl
  | .obj fields, h => by
    rw [isJSON] at h
    rw [jsonValue, jsonFields_of_isJSONFields fields h]
theorem jsonFields_of_isJSONFields :
    ∀ (fields : List (String × JSValue)), isJSONFields fields = true → jsonFields fields = fields
  | [], _ => rfl
  | (k, v) :: rest, h => by
    rw [isJSONFields, Bool.and_eq_true] at h
    rw [jsonFields, jsonValue_of_isJSON v h.1, jsonFields_of_isJSONFields rest h.2]
end

theorem filter_eq_nil_of_no_record (s : EventStore) (A : JSPrim)
    (h : ∀ e ∈ s.eventStream, e.aggregateId ≠ A) :
    s.eventStream.filter (fun e => strictEq e.aggregateId A) = [] := by
  rw [List.filter_eq_nil_iff]
  intro e he
  simp [strictEq_eq_false_of_ne (h e he)]

/-- C15 on the code: on a new store, where `User-101` has no record,
`rebuildState('User-101', {balance: NaN})` returns `{balance: null}` and
`rebuildState('User-101', {note: undefined})` returns `{}`, neither of them
equal to the seed, and `rebuildState('User-101', undefined)` raises a
`SyntaxError`: the copy made by `JSON.parse(JSON.stringify(...))`, commented
`Start with a fresh copy`, changes or loses these fields. -/
theorem empty_history_changes_seed :
    EventStore.constructor.rebuildState sampleHost (.str "User-101")
        (.obj [("balance", .prim (.num .nan))])
      = .ok (.obj [("balance", .prim .null)])
    ∧ JSValue.obj [("balance", .prim .null)] ≠ JSValue.obj [("balance", .prim (.num .nan))]
    ∧ EventStore.constructor.rebuildState sampleHost (.str "User-101")
        (.obj [("note", JSValue.undef)])
      = .ok (.obj [])
    ∧ JSValue.obj [] ≠ JSValue.obj [("note", JSValue.undef)]
    ∧ EventStore.constructor.rebuildState sampleHost (.str "User-101") JSValue.undef
      = .error .syntaxError := by
  refine ⟨rfl, ?_, rfl, ?_, rfl⟩
  · intro h
    simp at h
  · intro h
    simp at h

/-- Where the copy is exact: for every store, every aggregate id `A` that no
record of `eventStream` carries (in particular on a new store), and every
`initialBaseState` that is a JSON value (`null`, a boolean, a finite number, a
string, or an object made of such values: no `undefined`, `NaN` or infinity in
it), `rebuildState(A, initialBaseState)` returns a value equal to
`initialBaseState`. -/
theorem rebuildState_empty_history (host : Host) (s : EventStore) (A : JSPrim)
    (initialBaseState : JSValue)
    (hA : ∀ e ∈ s.eventStream, e.aggregateId ≠ A)
    (hseed : isJSON initialBaseState = true) :
    s.rebuildState host A initialBaseState = .ok initialBaseState
    ∧ EventStore.constructor.rebuildState host A initialBaseState = .ok initialBaseState := by
  have hcopy : jsonRoundTrip initialBaseState = .ok initialBaseState := by
    rw [jsonRoundTrip, jsonValue_of_isJSON initialBaseState hseed]
  constructor
  · rw [EventStore.rebuildState, filter_eq_nil_of_no_record s A hA, hcopy]
    rfl
  · rw [EventStore.rebuildState, hcopy]
    rfl

/-- An instance: `User-103` has no record in the demonstration's log; the
seed is a JSON value with a nested object. -/
theorem rebuildState_empty_history_witness :
    (demonstration 1 2 3 4).rebuildState sampleHost (.str "User-103")
        (.obj [("status", JSValue.ofString "pending"), ("balance", JSValue.ofInt 0),
          ("owner", .obj [("name", JSValue.ofString "Ada"), ("vip", .prim (.bool true)),
            ("limit", .prim .null)])])
      = .ok (.obj [("status", JSValue.ofString "pending"), ("balance", JSValue.ofInt 0),
          ("owner", .obj [("name", JSValue.ofString "Ada"), ("vip", .prim (.bool true)),
            ("limit", .prim .null)])])
    ∧ EventStore.constructor.rebuildState sampleHost (.str "User-103")
        (.obj [("status", JSValue.ofString "pending"), ("balance", JSValue.ofInt 0),
          ("owner", .obj [("name", JSValue.ofString "Ada"), ("vip", .prim (.bool true)),
            ("limit", .prim .null)])])
      = .ok (.obj [("status", JSValue.ofString "pending"), ("balance", JSValue.ofInt 0),
          ("owner", .obj [("name", JSValue.ofString "Ada"), ("vip", .prim (.bool true)),
            ("limit", .prim .null)])]) :=
  rebuildState_empty_history sampleHost (demonstration 1 2 3 4) (.str "User-103") _
    (by
      intro e he
      simp only [demonstration, EventStore.recordEvent, EventStore.constructor, List.nil_append,
        List.cons_append, List.mem_cons, List.mem_singleton, List.mem_nil_iff, or_false] at he
      rcases he with rfl | rfl | rfl | rfl <;> decide)
    rfl

/-! ## C18: the transitions touch only `status` and `balance` -/

theorem setProp_obj (fields : List (String × JSValue)) (key : String) (val : JSValue) :
    setProp (.obj fields) key val = .ok (.obj (setField fields key val)) := rfl

/-- One event on an object state gives, when it does not raise, an object that
agrees with the state on every property but `status` and `balance`. -/
theorem applyEvent_obj_frame (host : Host) (fields : List (String × JSValue))
    (event : EventRecord) (state' : JSValue)
    (h : applyEvent host (.obj fields) event = .ok state') :
    ∃ fields', state' = .obj fields'
      ∧ ∀ key, key ≠ "status" → key ≠ "balance" → fields'.lookup key = fields.lookup key := by
  unfold applyEvent at h
  split at h
  · rw [setProp_obj] at h
    cases hp : getProp event.payload "initialBalance" with
    | error e =>
      rw [hp] at h
      exact absurd h (by simp [bind, Except.bind])
    | ok v =>
      rw [hp] at h
      simp only [bind, Except.bind, setProp_obj, Except.ok.injEq] at h
      refine ⟨_, h.symm, ?_⟩
      intro key hs hb
      rw [lookup_setField_of_ne _ _ _ _ hb, lookup_setField_of_ne _ _ _ _ hs]
  · split at h
    · cases hb : getProp (.obj fields) "balance" with
      | error e =>
        rw [hb] at h
        exact absurd h (by simp [bind, Except.bind])
      | ok balance =>
        cases hp : getProp event.payload "amount" with
        | error e =>
          rw [hb, hp] at h
          exact absurd h (by simp [bind, Except.bind])
        | ok amount =>
          cases hsum : jsAdd host balance amount with
          | error e =>
            rw [hb, hp] at h
            simp only [bind, Except.bind, hsum] at h
            exact absurd h (by simp)
          | ok sum =>
            rw [hb, hp] at h
            simp only [bind, Except.bind, hsum, setProp_obj, Except.ok.injEq] at h
            refine ⟨_, h.symm, ?_⟩
            intro key _ hkb
            rw [lookup_setField_of_ne _ _ _ _ hkb]
    · split at h
      · cases hb : getProp (.obj fields) "balance" with
        | error e =>
          rw [hb] at h
          exact absurd h (by simp [bind, Except.bind])
        | ok balance =>
          cases hp : getProp event.payload "amount" with
          | error e =>
            rw [hb, hp] at h
            exact absurd h (by simp [bind, Except.bind])
          | ok amount =>
            cases hdiff : jsSub host balance amount with
            | error e =>
              rw [hb, hp] at h
              simp only [bind, Except.bind, hdiff] at h
              exact absurd h (by simp)
            | ok difference =>
              rw [hb, hp] at h
              simp only [bind, Except.bind, hdiff, setProp_obj, Except.ok.injEq] at h
              refine ⟨_, h.symm, ?_⟩
              intro key _ hkb
              rw [lookup_setField_of_ne _ _ _ _ hkb]
      · simp only [pure, Except.pure, Except.ok.injEq] at h
        exact ⟨fields, h.symm, fun _ _ _ => rfl⟩

theorem replay_obj_frame (host : Host) (events : List EventRecord)
    (fields : List (String × JSValue)) (result : JSValue)
    (h : replay host (.obj fields) events = .ok result) :
    ∃ fields', result = .obj fields'
      ∧ ∀ key, key ≠ "status" → key ≠ "balance" → fields'.lookup key = fields.lookup key := by
  induction events generalizing fields with
  | nil =>
    simp only [replay_nil, Except.ok.injEq] at h
    exact ⟨fields, h.symm, fun _ _ _ => rfl⟩
  | cons event rest ih =>
    rw [replay_cons] at h
    cases hap : applyEvent host (.obj fields) event with
    | error e =>
      rw [hap] at h
      exact absurd h (by simp)
    | ok state' =>
      rw [hap] at h
      obtain ⟨fields₁, rfl, h₁⟩ := applyEvent_obj_frame host fields event state' hap
      obtain ⟨fields₂, hres, h₂⟩ := ih fields₁ h
      exact ⟨fields₂, hres, fun key hs hb => (h₂ key hs hb).trans (h₁ key hs hb)⟩

/-- C18 (the transitions touch only `status` and `balance`): for every log,
aggregate id and seed that is a JSON object, when `rebuildState` returns, its
result is an object in which every property other than `status` and `balance`
is a property of the seed with the value it has in the seed: each such field
of the seed is in the result unchanged, and the result has no field beyond
those of the seed, `status` and `balance`. -/
theorem rebuildState_frame (host : Host) (s : EventStore) (A : JSPrim)
    (seedFields : List (String × JSValue)) (result : JSValue)
    (hseed : isJSON (.obj seedFields) = true)
    (hresult : s.rebuildState host A (.obj seedFields) = .ok result) :
    ∃ fields, result = .obj fields
      ∧ (∀ key, key ≠ "status" → key ≠ "balance" →
          fields.lookup key = seedFields.lookup key)
      ∧ (∀ key, key ≠ "status" → key ≠ "balance" →
          getProp result key = getProp (.obj seedFields) key)
      ∧ (∀ key, hasField fields key = true →
          hasField seedFields key = true ∨ key = "status" ∨ key = "balance") := by
  have hcopy : jsonRoundTrip (.obj seedFields) = .ok (.obj seedFields) := by
    rw [jsonRoundTrip, jsonValue_of_isJSON _ hseed]
  rw [EventStore.rebuildState, hcopy] at hresult
  obtain ⟨fields, rfl, hframe⟩ := replay_obj_frame host _ seedFields result hresult
  refine ⟨fields, rfl, hframe, ?_, ?_⟩
  · intro key hs hb
    simp only [getProp, hframe key hs hb]
  · intro key hkey
    by_cases hs : key = "status"
    · exact Or.inr (Or.inl hs)
    · by_cases hb : key = "balance"
      · exact Or.inr (Or.inr hb)
      · left
        simpa only [hasField, hframe key hs hb] using hkey

/-- Witness of C18: the demonstration's `User-101` rebuilt over a seed with
two more fields. -/
theorem rebuildState_frame_witness :
    ∃ fields,
      JSValue.obj [("owner", JSValue.ofString "Ada"), ("status", JSValue.ofString "active"),
          ("balance", JSValue.ofInt 130), ("tags", .obj [("vip", .prim (.bool true))])]
        = .obj fields
      ∧ (∀ key, key ≠ "status" → key ≠ "balance" →
          fields.lookup key
            = [("owner", JSValue.ofString "Ada"), ("status", JSValue.ofString "pending"),
                ("balance", JSValue.ofInt 0),
                ("tags", JSValue.obj [("vip", .prim (.bool true))])].lookup key)
      ∧ (∀ key, key ≠ "status" → key ≠ "balance" →
          getProp (.obj [("owner", JSValue.ofString "Ada"),
              ("status", JSValue.ofString "active"), ("balance", JSValue.ofInt 130),
              ("tags", .obj [("vip", .prim (.bool true))])]) key
            = getProp (.obj [("owner", JSValue.ofString "Ada"),
              ("status", JSValue.ofString "pending"), ("balance", JSValue.ofInt 0),
              ("tags", .obj [("vip", .prim (.bool true))])]) key)
      ∧ (∀ key, hasField fields key = true →
          hasField [("owner", JSValue.ofString "Ada"), ("status", JSValue.ofString "pending"),
              ("balance", JSValue.ofInt 0),
              ("tags", JSValue.obj [("vip", .prim (.bool true))])] key = true
            ∨ key = "status" ∨ key = "balance") :=
  rebuildState_frame sampleHost (demonstration 1 2 3 4) (.str "User-101")
    [("owner", JSValue.ofString "Ada"), ("status", JSValue.ofString "pending"),
      ("balance", JSValue.ofInt 0), ("tags", .obj [("vip", .prim (.bool true))])]
    (.obj [("owner", JSValue.ofString "Ada"), ("status", JSValue.ofString "active"),
      ("balance", JSValue.ofInt 130), ("tags", .obj [("vip", .prim (.bool true))])])
    rfl rfl

/-! ## C19: when `rebuildState` returns -/

theorem lookup_eq_none_of_all_ne (fields : List (String × JSValue)) (key : String)
    (h : fields.all (fun kv => kv.1 != key) = true) : fields.lookup key = none := by
  induction fields with
  | nil => rfl
  | cons kv rest ih =>
    obtain ⟨k, v⟩ := kv
    simp only [List.all_cons, Bool.and_eq_true, bne_iff_ne, ne_eq] at h
    have hbeq : (key == k) = false := by simpa using Ne.symm h.1
    simp only [List.lookup, hbeq]
    exact ih h.2

theorem mem_of_lookup_eq_some (fields : List (String × JSValue)) (key : String) (v : JSValue)
    (h : fields.lookup key = some v) : (key, v) ∈ fields := by
  induction fields with
  | nil => simp [List.lookup] at h
  | cons kv rest ih =>
    obtain ⟨k, w⟩ := kv
    by_cases hk : key = k
    · subst hk
      simp only [List.lookup, beq_self_eq_true, Option.some.injEq] at h
      subst h
      exact List.mem_cons_self _ _
    · have hbeq : (key == k) = false := by simpa using hk
      simp only [List.lookup, hbeq] at h
      exact List.mem_cons_of_mem _ (ih h)

/-- A convertible value is converted by `ToPrimitive`. -/
theorem toPrimitive_of_convertible (v : JSValue) (h : convertible v = true) :
    ∃ p, toPrimitive v = .ok p := by
  cases v with
  | prim p => exact ⟨p, rfl⟩
  | obj fields =>
    refine ⟨.str "[object Object]", ?_⟩
    simp only [convertible] at h
    simp [toPrimitive, hasField, lookup_eq_none_of_all_ne fields "toString" h]

/-- Every property of the JSON copy of an object is the copy of a property of
the object under the same name. -/
theorem mem_jsonFields (fields : List (String × JSValue)) (k : String) (w : JSValue)
    (h : (k, w) ∈ jsonFields fields) : ∃ v, (k, v) ∈ fields ∧ jsonValue v = some w := by
  induction fields with
  | nil => simp [jsonFields] at h
  | cons kv rest ih =>
    obtain ⟨k', v'⟩ := kv
    rw [jsonFields] at h
    cases hv : jsonValue v' with
    | none =>
      rw [hv] at h
      obtain ⟨v, hmem, hjson⟩ := ih h
      exact ⟨v, List.mem_cons_of_mem _ hmem, hjson⟩
    | some w' =>
      rw [hv] at h
      simp only [List.mem_cons, Prod.mk.injEq] at h
      rcases h with ⟨rfl, rfl⟩ | h
      · exact ⟨v', List.mem_cons_self _ _, hv⟩
      · obtain ⟨v, hmem, hjson⟩ := ih h
        exact ⟨v, List.mem_cons_of_mem _ hmem, hjson⟩

/-- The JSON copy of a convertible value is convertible. -/
theorem convertible_jsonValue (v w : JSValue) (hv : convertible v = true)
    (h : jsonValue v = some w) : convertible w = true := by
  cases v with
  | prim p =>
    cases p with
    | undefined => simp [jsonValue] at h
    | null => simp only [jsonValue, Option.some.injEq] at h; subst h; rfl
    | bool b => simp only [jsonValue, Option.some.injEq] at h; subst h; rfl
    | str t => simp only [jsonValue, Option.some.injEq] at h; subst h; rfl
    | num n =>
      cases n <;> (simp only [jsonValue, Option.some.injEq] at h; subst h; rfl)
  | obj fields =>
    simp only [jsonValue, Option.some.injEq] at h
    subst h
    simp only [convertible, List.all_eq_true, bne_iff_ne, ne_eq] at hv ⊢
    intro kv hkv
    obtain ⟨v, hmem, -⟩ := mem_jsonFields fields kv.1 kv.2 hkv
    exact hv (kv.1, v) hmem

theorem jsAdd_of_toPrimitive (host : Host) (l r : JSValue) (lp rp : JSPrim)
    (hl : toPrimitive l = .ok lp) (hr : toPrimitive r = .ok rp) :
    ∃ p, jsAdd host l r = .ok (.prim p) := by
  simp only [jsAdd, hl, hr, bind, Except.bind]
  split
  · exact ⟨_, rfl⟩
  · exact ⟨_, rfl⟩

theorem jsSub_of_toPrimitive (host : Host) (l r : JSValue) (lp rp : JSPrim)
    (hl : toPrimitive l = .ok lp) (hr : toPrimitive r = .ok rp) :
    ∃ p, jsSub host l r = .ok (.prim p) := by
  simp only [jsSub, hl, hr, bind, Except.bind]
  exact ⟨_, rfl⟩

theorem convertible_lookup (fields : List (String × JSValue)) (keys : List String)
    (key : String) (h : operandsConvertible fields keys) (hkey : key ∈ keys) :
    convertible ((fields.lookup key).getD JSValue.undef) = true := by
  cases hl : fields.lookup key with
  | none => rfl
  | some v => exact h (key, v) (mem_of_lookup_eq_some fields key v hl) hkey

theorem mem_setField (fields : List (String × JSValue)) (key : String) (val : JSValue)
    (kv : String × JSValue) (h : kv ∈ setField fields key val) :
    kv = (key, val) ∨ kv ∈ fields := by
  induction fields with
  | nil =>
    simp only [setField, List.mem_singleton] at h
    exact Or.inl h
  | cons kv' rest ih =>
    obtain ⟨k, v⟩ := kv'
    by_cases hk : k = key
    · subst hk
      simp only [setField, if_true, List.mem_cons] at h
      rcases h with h | h
      · exact Or.inl h
      · exact Or.inr (List.mem_cons_of_mem _ h)
    · simp only [setField, if_neg hk, List.mem_cons] at h
      rcases h with h | h
      · exact Or.inr (h ▸ List.mem_cons_self _ _)
      · rcases ih h with h' | h'
        · exact Or.inl h'
        · exact Or.inr (List.mem_cons_of_mem _ h')

theorem operandsConvertible_setField_balance (fields : List (String × JSValue)) (val : JSValue)
    (h : operandsConvertible fields ["balance"]) (hval : convertible val = true) :
    operandsConvertible (setField fields "balance" val) ["balance"] := by
  intro kv hkv hkey
  rcases mem_setField fields "balance" val kv hkv with rfl | hmem
  · exact hval
  · exact h kv hmem hkey

theorem operandsConvertible_setField_status (fields : List (String × JSValue)) (val : JSValue)
    (h : operandsConvertible fields ["balance"]) :
    operandsConvertible (setField fields "status" val) ["balance"] := by
  intro kv hkv hkey
  rcases mem_setField fields "status" val kv hkv with rfl | hmem
  · simp at hkey
  · exact h kv hmem hkey

/-- One event on an object state whose `balance` is convertible, with an object
payload whose `initialBalance` and `amount` are convertible, does not raise and
gives such a state again. -/
theorem applyEvent_obj_ok (host : Host) (fields payloadFields : List (String × JSValue))
    (event : EventRecord)
    (hfields : operandsConvertible fields ["balance"])
    (hpayload : event.payload = .obj payloadFields)
    (hoperands : operandsConvertible payloadFields ["initialBalance", "amount"]) :
    ∃ fields', applyEvent host (.obj fields) event = .ok (.obj fields')
      ∧ operandsConvertible fields' ["balance"] := by
  have hbalance := convertible_lookup fields ["balance"] "balance" hfields (by simp)
  have hamount := convertible_lookup payloadFields ["initialBalance", "amount"] "amount"
    hoperands (by simp)
  have hinitial := convertible_lookup payloadFields ["initialBalance", "amount"]
    "initialBalance" hoperands (by simp)
  obtain ⟨bp, hbp⟩ := toPrimitive_of_convertible _ hbalance
  obtain ⟨ap, hap⟩ := toPrimitive_of_convertible _ hamount
  unfold applyEvent
  rw [hpayload]
  split
  · refine ⟨_, rfl, operandsConvertible_setField_balance _ _
      (operandsConvertible_setField_status _ _ hfields) ?_⟩
    unfold jsOr
    split
    · exact hinitial
    · rfl
  · split
    · obtain ⟨p, hp⟩ := jsAdd_of_toPrimitive host _ _ bp ap hbp hap
      refine ⟨setField fields "balance" (.prim p), ?_,
        operandsConvertible_setField_balance _ _ hfields rfl⟩
      simp only [getProp, bind, Except.bind, hp, setProp_obj]
    · split
      · obtain ⟨p, hp⟩ := jsSub_of_toPrimitive host _ _ bp ap hbp hap
        refine ⟨setField fields "balance" (.prim p), ?_,
          operandsConvertible_setField_balance _ _ hfields rfl⟩
        simp only [getProp, bind, Except.bind, hp, setProp_obj]
      · exact ⟨fields, rfl, hfields⟩

theorem replay_obj_ok (host : Host) (events : List EventRecord)
    (fields : List (String × JSValue))
    (hfields : operandsConvertible fields ["balance"])
    (hevents : ∀ e ∈ events, ∃ payloadFields, e.payload = .obj payloadFields
      ∧ operandsConvertible payloadFields ["initialBalance", "amount"]) :
    ∃ fields', replay host (.obj fields) events = .ok (.obj fields') := by
  induction events generalizing fields with
  | nil => exact ⟨fields, rfl⟩
  | cons event rest ih =>
    obtain ⟨payloadFields, hpayload, hoperands⟩ := hevents event (List.mem_cons_self _ _)
    obtain ⟨fields₁, hap, hfields₁⟩ :=
      applyEvent_obj_ok host fields payloadFields event hfields hpayload hoperands
    rw [replay_cons, hap]
    exact ih fields₁ hfields₁ (fun e he => hevents e (List.mem_cons_of_mem _ he))

/-- C19, as stated, fails: after `recordEvent('User-101', 'BalanceCredited',
{amount: {toString: 1}})` on a new store, the seed `{balance: 0}` is a JSON
object and the only payload is an object, yet `rebuildState('User-101',
{balance: 0})` raises a `TypeError`: `0 + {toString: 1}` cannot convert its
right operand to a primitive. -/
theorem rebuildState_raises_on_unconvertible_amount :
    isJSON (.obj [("balance", JSValue.ofInt 0)]) = true
    ∧ (EventStore.constructor.recordEvent (.str "User-101") (.str "BalanceCredited")
          (.obj [("amount", .obj [("toString", JSValue.ofInt 1)])]) 0).1.rebuildState sampleHost
          (.str "User-101") (.obj [("balance", JSValue.ofInt 0)])
        = .error .typeError :=
  ⟨rfl, rfl⟩

/-- C19, amended: whenever `initialBaseState` is a JSON-serialisable object
(not `undefined`, `null` or a primitive; every object of the model is
JSON-serialisable), every record of the requested aggregate has an object
payload, and the seed's `balance` and these payloads' `initialBalance` and
`amount` are each `undefined`, `null`, a boolean, a number, a string, or an
object made of such data that has no property named `toString` (so that `+`
and `-` convert them to primitives), `rebuildState` returns a state, an
object, without raising, for every log and every sequence of event types. -/
theorem rebuildState_returns (host : Host) (s : EventStore) (A : JSPrim)
    (seedFields : List (String × JSValue))
    (hseed : operandsConvertible seedFields ["balance"])
    (hpayloads : ∀ e ∈ s.eventStream, strictEq e.aggregateId A = true →
      ∃ payloadFields, e.payload = .obj payloadFields
        ∧ operandsConvertible payloadFields ["initialBalance", "amount"]) :
    ∃ fields, s.rebuildState host A (.obj seedFields) = .ok (.obj fields) := by
  have hcopy : operandsConvertible (jsonFields seedFields) ["balance"] := by
    intro kv hkv hkey
    obtain ⟨v, hmem, hjson⟩ := mem_jsonFields seedFields kv.1 kv.2 hkv
    exact convertible_jsonValue v kv.2 (hseed (kv.1, v) hmem hkey) hjson
  have hround : jsonRoundTrip (.obj seedFields) = .ok (.obj (jsonFields seedFields)) := by
    simp only [jsonRoundTrip, jsonValue]
  rw [EventStore.rebuildState, hround]
  refine replay_obj_ok host _ _ hcopy ?_
  intro e he
  rw [List.mem_filter] at he
  exact hpayloads e he.1 he.2

/-- Witness of C19 (amended): the demonstration's `User-101`. -/
theorem rebuildState_returns_witness :
    ∃ fields, (demonstration 1 2 3 4).rebuildState sampleHost (.str "User-101")
        (.obj [("status", JSValue.ofString "pending"), ("balance", JSValue.ofInt 0)])
      = .ok (.obj fields) :=
  rebuildState_returns sampleHost (demonstration 1 2 3 4) (.str "User-101")
    [("status", JSValue.ofString "pending"), ("balance", JSValue.ofInt 0)]
    (by
      intro kv hkv _
      simp only [List.mem_cons, List.mem_singleton, List.mem_nil_iff, or_false] at hkv
      rcases hkv with rfl | rfl <;> rfl)
    (by
      intro e he _
      simp only [demonstration, EventStore.recordEvent, EventStore.constructor, List.nil_append,
        List.cons_append, List.mem_cons, List.mem_singleton, List.mem_nil_iff, or_false] at he
      rcases he with rfl | rfl | rfl | rfl <;>
        refine ⟨_, rfl, ?_⟩ <;>
        intro kv hkv _ <;>
        simp only [List.mem_singleton] at hkv <;>
        subst hkv <;> rfl)

/-! ## C16: the balance formula -/

theorem self_mem_runningBalances (b : Int) (moves : List Movement) :
    b ∈ runningBalances b moves := by
  cases moves with
  | nil => simp [runningBalances]
  | cons m rest => cases m <;> simp [runningBalances]

/-- Replaying movements on an object state whose `balance` is the integer `b`:
while every running balance is a safe integer, the result has the exact
balance and the `status` it started with. -/
theorem replay_movements (host : Host) (moves : List Movement) (events : List EventRecord)
    (h : List.Forall₂ Movement.describes moves events)
    (fields : List (String × JSValue)) (b : Int) (status : JSValue)
    (hbalance : fields.lookup "balance" = some (JSValue.ofInt b))
    (hstatus : fields.lookup "status" = some status)
    (hsafe : ∀ x ∈ runningBalances b moves, x.natAbs ≤ 2 ^ 53) :
    ∃ fields', replay host (.obj fields) events = .ok (.obj fields')
      ∧ fields'.lookup "balance"
        = some (JSValue.ofInt (b + creditTotal moves - withdrawalTotal moves))
      ∧ fields'.lookup "status" = some status := by
  induction h generalizing fields b with
  | nil =>
    refine ⟨fields, rfl, ?_, hstatus⟩
    simp [creditTotal, withdrawalTotal, hbalance]
  | @cons m event moves events hdesc _ ih =>
    cases m with
    | credit c =>
      obtain ⟨htype, hamount⟩ := hdesc
      have hsafe' : ∀ x ∈ runningBalances (b + c) moves, x.natAbs ≤ 2 ^ 53 := by
        intro x hx
        exact hsafe x (by simp [runningBalances, hx])
      have hstep := hsafe' (b + c) (self_mem_runningBalances _ _)
      rw [replay_cons, balanceCredited_branch_eq host fields event b c htype hbalance hamount,
        roundDouble_of_natAbs_le _ hstep]
      obtain ⟨fields', hreplay, hb', hs'⟩ := ih
        (setField fields "balance" (JSValue.ofInt (b + c))) (b + c)
        (lookup_setField_self _ _ _)
        (by rw [lookup_setField_of_ne _ _ _ _ (by decide)]; exact hstatus) hsafe'
      refine ⟨fields', hreplay, ?_, hs'⟩
      rw [hb']
      simp only [creditTotal, withdrawalTotal]
      congr 2
      omega
    | withdrawal w =>
      obtain ⟨htype, hamount⟩ := hdesc
      have hsafe' : ∀ x ∈ runningBalances (b - w) moves, x.natAbs ≤ 2 ^ 53 := by
        intro x hx
        exact hsafe x (by simp [runningBalances, hx])
      have hstep := hsafe' (b - w) (self_mem_runningBalances _ _)
      rw [replay_cons, fundsWithdrawn_branch_eq host fields event b w htype hbalance hamount,
        roundDouble_of_natAbs_le _ hstep]
      obtain ⟨fields', hreplay, hb', hs'⟩ := ih
        (setField fields "balance" (JSValue.ofInt (b - w))) (b - w)
        (lookup_setField_self _ _ _)
        (by rw [lookup_setField_of_ne _ _ _ _ (by decide)]; exact hstatus) hsafe'
      refine ⟨fields', hreplay, ?_, hs'⟩
      rw [hb']
      simp only [creditTotal, withdrawalTotal]
      congr 2
      omega

theorem jsOr_ofInt_zero (i : Int) : jsOr (JSValue.ofInt i) (JSValue.ofInt 0) = JSValue.ofInt i := by
  by_cases hi : i = 0
  · subst hi
    rfl
  · simp [jsOr, JSValue.ofInt, toBoolean, hi]

/-- C16, as stated, fails: for the log `AccountCreated {initialBalance:
9007199254740992}`, `BalanceCredited {amount: 1}`, `FundsWithdrawn {amount: 1}`
of `User-101`, the rebuilt balance is `9007199254740991`, while
`i + c1 - w1` is `9007199254740992`: the sum `2 ^ 53 + 1` is rounded to
`2 ^ 53` before the withdrawal. -/
theorem balance_formula_beyond_safe_integers :
    (((EventStore.constructor.recordEvent (.str "User-101") (.str "AccountCreated")
          (.obj [("initialBalance", JSValue.ofInt 9007199254740992)]) 0).1.recordEvent
          (.str "User-101") (.str "BalanceCredited")
          (.obj [("amount", JSValue.ofInt 1)]) 1).1.recordEvent
          (.str "User-101") (.str "FundsWithdrawn")
          (.obj [("amount", JSValue.ofInt 1)]) 2).1.rebuildState sampleHost (.str "User-101")
        (.obj [("status", JSValue.ofString "pending"), ("balance", JSValue.ofInt 0)])
      = .ok (.obj [("status", JSValue.ofString "active"),
          ("balance", JSValue.ofInt 9007199254740991)])
    ∧ JSValue.ofInt 9007199254740991 ≠ JSValue.ofInt (9007199254740992 + 1 - 1) := by
  refine ⟨rfl, ?_⟩
  intro h
  simp [JSValue.ofInt] at h

/-- C16, amended: for every aggregate `A` whose events in the log are one
`AccountCreated` with an integer `initialBalance` `i` followed, in any
interleaving with each other and with the events of other aggregates, by
`BalanceCredited` events with integer amounts `c1..cm` and `FundsWithdrawn`
events with integer amounts `w1..wn`, provided `i` and every running balance
along these events are at most `2 ^ 53` in magnitude, `rebuildState(A, seed)`
for any object seed has `status` `'active'` and
`balance = i + (c1+...+cm) - (w1+...+wn)`; the balance may be negative. -/
theorem rebuildState_balance_formula (host : Host) (s : EventStore) (A : JSPrim)
    (seedFields : List (String × JSValue)) (created : EventRecord)
    (events : List EventRecord) (i : Int) (moves : List Movement)
    (hlog : s.eventStream.filter (fun e => strictEq e.aggregateId A) = created :: events)
    (hcreated : created.eventType = .str "AccountCreated")
    (hinitial : getProp created.payload "initialBalance" = .ok (JSValue.ofInt i))
    (hmoves : List.Forall₂ Movement.describes moves events)
    (hsafe : ∀ x ∈ runningBalances i moves, x.natAbs ≤ 2 ^ 53) :
    ∃ fields, s.rebuildState host A (.obj seedFields) = .ok (.obj fields)
      ∧ getProp (.obj fields) "status" = .ok (JSValue.ofString "active")
      ∧ getProp (.obj fields) "balance"
        = .ok (JSValue.ofInt (i + creditTotal moves - withdrawalTotal moves)) := by
  have hround : jsonRoundTrip (.obj seedFields) = .ok (.obj (jsonFields seedFields)) := by
    simp only [jsonRoundTrip, jsonValue]
  obtain ⟨fields, hreplay, hbalance, hstatus⟩ := replay_movements host moves events hmoves
    (setField (setField (jsonFields seedFields) "status" (JSValue.ofString "active")) "balance"
      (JSValue.ofInt i)) i (JSValue.ofString "active")
    (lookup_setField_self _ _ _)
    (by rw [lookup_setField_of_ne _ _ _ _ (by decide), lookup_setField_self]) hsafe
  refine ⟨fields, ?_, ?_, ?_⟩
  · rw [EventStore.rebuildState, hround, hlog]
    simp only
    rw [replay_cons,
      accountCreated_branch_eq host (jsonFields seedFields) created (JSValue.ofInt i) hcreated
        hinitial, jsOr_ofInt_zero]
    exact hreplay
  · simp only [getProp, hstatus, Option.getD_some]
  · simp only [getProp, hbalance, Option.getD_some]

/-- Witness of C16 (amended): the demonstration followed by a withdrawal of 200
from `User-101`, whose balance becomes `100 + 50 - (20 + 200) = -70`. -/
theorem rebuildState_balance_formula_witness :
    ∃ fields, ((demonstration 1 2 3 4).recordEvent (.str "User-101") (.str "FundsWithdrawn")
          (.obj [("amount", JSValue.ofInt 200)]) 5).1.rebuildState sampleHost (.str "User-101")
          (.obj [("status", JSValue.ofString "pending"), ("balance", JSValue.ofInt 0)])
        = .ok (.obj fields)
      ∧ getProp (.obj fields) "status" = .ok (JSValue.ofString "active")
      ∧ getProp (.obj fields) "balance"
        = .ok (JSValue.ofInt (100
            + creditTotal [.credit 50, .withdrawal 20, .withdrawal 200]
            - withdrawalTotal [.credit 50, .withdrawal 20, .withdrawal 200])) :=
  rebuildState_balance_formula sampleHost
    ((demonstration 1 2 3 4).recordEvent (.str "User-101") (.str "FundsWithdrawn")
      (.obj [("amount", JSValue.ofInt 200)]) 5).1 (.str "User-101")
    [("status", JSValue.ofString "pending"), ("balance", JSValue.ofInt 0)]
    ⟨1, .str "User-101", .str "AccountCreated", 1, .obj [("initialBalance", JSValue.ofInt 100)]⟩
    [⟨2, .str "User-101", .str "BalanceCredited", 2, .obj [("amount", JSValue.ofInt 50)]⟩,
      ⟨3, .str "User-101", .str "FundsWithdrawn", 3, .obj [("amount", JSValue.ofInt 20)]⟩,
      ⟨5, .str "User-101", .str "FundsWithdrawn", 5, .obj [("amount", JSValue.ofInt 200)]⟩]
    100 [.credit 50, .withdrawal 20, .withdrawal 200]
    rfl rfl rfl
    (List.Forall₂.cons ⟨rfl, rfl⟩ (List.Forall₂.cons ⟨rfl, rfl⟩
      (List.Forall₂.cons ⟨rfl, rfl⟩ List.Forall₂.nil)))
    (by
      intro x hx
      simp only [runningBalances, List.mem_cons, List.mem_singleton, List.mem_nil_iff,
        or_false] at hx
      rcases hx with rfl | rfl | rfl | rfl <;> decide)

/-! ## C8: `rebuildState` writes to nothing that existed before the call -/

theorem memory_replay_nil (host : Host) (m : Memory) (stateRef : Nat) :
    Memory.replay host m stateRef [] = (m, .ok stateRef) := rfl

theorem memory_replay_cons (host : Host) (m : Memory) (stateRef : Nat) (event : StoredEvent)
    (rest : List StoredEvent) :
    Memory.replay host m stateRef (event :: rest)
      = match applyEvent host (m.heap.getD stateRef JSValue.undef) (event.read m.heap) with
        | .error e => (m, .error e)
        | .ok state =>
          Memory.replay host { m with heap := m.heap.set stateRef state } stateRef rest := rfl

/-- The loop leaves `eventStream`, `nextEventId` and the size of the heap as
they are. -/
theorem memory_replay_fields (host : Host) (m : Memory) (stateRef : Nat)
    (events : List StoredEvent) :
    (Memory.replay host m stateRef events).1.eventStream = m.eventStream
    ∧ (Memory.replay host m stateRef events).1.nextEventId = m.nextEventId
    ∧ (Memory.replay host m stateRef events).1.heap.length = m.heap.length := by
  induction events generalizing m with
  | nil => exact ⟨rfl, rfl, rfl⟩
  | cons event rest ih =>
    rw [memory_replay_cons]
    cases applyEvent host (m.heap.getD stateRef JSValue.undef) (event.read m.heap) with
    | error e => exact ⟨rfl, rfl, rfl⟩
    | ok state =>
      obtain ⟨h1, h2, h3⟩ := ih { m with heap := m.heap.set stateRef state }
      exact ⟨h1, h2, by rw [h3]; simp⟩

/-- The loop writes to no cell but the one of its working state. -/
theorem memory_replay_get?_of_ne (host : Host) (m : Memory) (stateRef : Nat)
    (events : List StoredEvent) (i : Nat) (hi : i ≠ stateRef) :
    (Memory.replay host m stateRef events).1.heap.get? i = m.heap.get? i := by
  induction events generalizing m with
  | nil => rfl
  | cons event rest ih =>
    rw [memory_replay_cons]
    cases applyEvent host (m.heap.getD stateRef JSValue.undef) (event.read m.heap) with
    | error e => rfl
    | ok state =>
      simp only
      rw [ih]
      simp only [List.get?_eq_getElem?]
      exact List.getElem?_set_ne (Ne.symm hi)

theorem read_eq_of_getD_eq (heap heap' : Heap) (e : StoredEvent)
    (h : heap'.getD e.payload JSValue.undef = heap.getD e.payload JSValue.undef) :
    StoredEvent.read heap' e = StoredEvent.read heap e := by
  simp only [StoredEvent.read, h]

theorem map_read_set (heap : Heap) (stateRef : Nat) (state : JSValue)
    (events : List StoredEvent) (h : ∀ e ∈ events, e.payload ≠ stateRef) :
    events.map (StoredEvent.read (heap.set stateRef state))
      = events.map (StoredEvent.read heap) := by
  refine List.map_congr_left ?_
  intro e he
  refine read_eq_of_getD_eq heap _ e ?_
  simp only [List.getD_eq_getElem?_getD, List.getElem?_set_ne (Ne.symm (h e he))]

/-- The loop in memory computes, in the cell of the working state, what the
loop on values computes from the payloads' contents, provided no record has
the working state as its payload. -/
theorem memory_replay_eq_replay (host : Host) (m : Memory) (stateRef : Nat)
    (events : List StoredEvent) (href : stateRef < m.heap.length)
    (hpayloads : ∀ e ∈ events, e.payload ≠ stateRef) :
    (Memory.replay host m stateRef events).2.map
        (fun r => (Memory.replay host m stateRef events).1.heap.getD r JSValue.undef)
      = replay host (m.heap.getD stateRef JSValue.undef)
          (events.map (StoredEvent.read m.heap)) := by
  induction events generalizing m with
  | nil => rfl
  | cons event rest ih =>
    have hrest : ∀ e ∈ rest, e.payload ≠ stateRef :=
      fun e he => hpayloads e (List.mem_cons_of_mem _ he)
    rw [memory_replay_cons, List.map_cons, replay_cons]
    cases applyEvent host (m.heap.getD stateRef JSValue.undef) (event.read m.heap) with
    | error e => rfl
    | ok state =>
      simp only
      rw [ih { m with heap := m.heap.set stateRef state } (by simpa using href) hrest]
      simp only
      rw [map_read_set m.heap stateRef state rest hrest]
      congr 1
      simp [List.getD_eq_getElem?_getD, List.getElem?_set_self href]

theorem map_read_append (heap : Heap) (state : JSValue) (events : List StoredEvent)
    (h : ∀ e ∈ events, e.payload < heap.length) :
    events.map (StoredEvent.read (heap ++ [state])) = events.map (StoredEvent.read heap) := by
  refine List.map_congr_left ?_
  intro e he
  refine read_eq_of_getD_eq heap _ e ?_
  simp only [List.getD_eq_getElem?_getD, List.getElem?_append_left (h e he)]

theorem filter_map_read (heap : Heap) (A : JSPrim) (events : List StoredEvent) :
    (events.map (StoredEvent.read heap)).filter (fun e => strictEq e.aggregateId A)
      = (events.filter (fun e => strictEq e.aggregateId A)).map (StoredEvent.read heap) := by
  induction events with
  | nil => rfl
  | cons e rest ih =>
    have hid : (StoredEvent.read heap e).aggregateId = e.aggregateId := rfl
    simp only [List.map_cons, List.filter_cons, hid, ih]
    split <;> rfl

/-- What one `rebuildState` call does to a memory whose records refer to
objects of the heap. -/
theorem memory_rebuildState_spec (host : Host) (m : Memory) (aggregateId : JSPrim)
    (seedRef : Nat) (hrefs : ∀ e ∈ m.eventStream, e.payload < m.heap.length) :
    (m.rebuildState host aggregateId seedRef).1.eventStream = m.eventStream
    ∧ (m.rebuildState host aggregateId seedRef).1.nextEventId = m.nextEventId
    ∧ m.heap.length ≤ (m.rebuildState host aggregateId seedRef).1.heap.length
    ∧ (∀ i, i < m.heap.length →
        (m.rebuildState host aggregateId seedRef).1.heap.get? i = m.heap.get? i)
    ∧ (m.rebuildState host aggregateId seedRef).2.map
        (fun ref => (m.rebuildState host aggregateId seedRef).1.heap.getD ref JSValue.undef)
      = m.store.rebuildState host aggregateId (m.heap.getD seedRef JSValue.undef) := by
  simp only [Memory.rebuildState, EventStore.rebuildState, Memory.store]
  cases jsonRoundTrip (m.heap.getD seedRef JSValue.undef) with
  | error e => exact ⟨rfl, rfl, Nat.le_refl _, fun _ _ => rfl, rfl⟩
  | ok state =>
    simp only
    obtain ⟨h1, h2, h3⟩ := memory_replay_fields host { m with heap := m.heap ++ [state] }
      m.heap.length (m.eventStream.filter (fun e => strictEq e.aggregateId aggregateId))
    refine ⟨h1, h2, ?_, ?_, ?_⟩
    · rw [h3]
      simp
    · intro i hi
      rw [memory_replay_get?_of_ne host _ _ _ i (Nat.ne_of_lt hi)]
      simp only [List.get?_eq_getElem?]
      exact List.getElem?_append_left hi
    · have hfiltered : ∀ e ∈ m.eventStream.filter (fun e => strictEq e.aggregateId aggregateId),
          e.payload < m.heap.length := fun e he => hrefs e (List.mem_of_mem_filter he)
      rw [memory_replay_eq_replay host { m with heap := m.heap ++ [state] } m.heap.length _
        (by simp) (fun e he => Nat.ne_of_lt (hfiltered e he))]
      simp only
      rw [map_read_append m.heap state _ hfiltered, filter_map_read]
      congr 1
      simp [List.getD_eq_getElem?_getD]

/-- C8 (`rebuildState` is read-only on the store): on a memory whose records
and seed refer to objects of the heap, after `rebuildState` (returning or
raising) `eventStream` and `nextEventId` are what they were, every object that
existed before the call, each logged payload among them, has the contents it
had, so the log read from memory is the same in length, order and every field
of every record; the call returns what `rebuildState` computes from that log
and the seed's contents; and a second call with the same aggregate id and the
same seed, made on the memory the first one left, gives an equal result. -/
theorem rebuildState_read_only (host : Host) (m : Memory) (aggregateId : JSPrim)
    (seedRef : Nat) (hseed : seedRef < m.heap.length)
    (hrefs : ∀ e ∈ m.eventStream, e.payload < m.heap.length) :
    (m.rebuildState host aggregateId seedRef).1.eventStream = m.eventStream
    ∧ (m.rebuildState host aggregateId seedRef).1.nextEventId = m.nextEventId
    ∧ (∀ i, i < m.heap.length →
        (m.rebuildState host aggregateId seedRef).1.heap.get? i = m.heap.get? i)
    ∧ (m.rebuildState host aggregateId seedRef).1.store = m.store
    ∧ (m.rebuildState host aggregateId seedRef).2.map
        (fun ref => (m.rebuildState host aggregateId seedRef).1.heap.getD ref JSValue.undef)
      = m.store.rebuildState host aggregateId (m.heap.getD seedRef JSValue.undef)
    ∧ ((m.rebuildState host aggregateId seedRef).1.rebuildState host aggregateId seedRef).2.map
        (fun ref =>
          ((m.rebuildState host aggregateId seedRef).1.rebuildState host aggregateId
            seedRef).1.heap.getD ref JSValue.undef)
      = (m.rebuildState host aggregateId seedRef).2.map
        (fun ref => (m.rebuildState host aggregateId seedRef).1.heap.getD ref JSValue.undef) := by
  obtain ⟨h1, h2, h3, h4, h5⟩ := memory_rebuildState_spec host m aggregateId seedRef hrefs
  have hgetD : ∀ i, i < m.heap.length →
      (m.rebuildState host aggregateId seedRef).1.heap.getD i JSValue.undef
        = m.heap.getD i JSValue.undef := by
    intro i hi
    have := h4 i hi
    simp only [List.get?_eq_getElem?] at this
    simp only [List.getD_eq_getElem?_getD, this]
  have hstore : (m.rebuildState host aggregateId seedRef).1.store = m.store := by
    simp only [Memory.store, h1, h2]
    congr 1
    refine List.map_congr_left ?_
    intro e he
    exact read_eq_of_getD_eq m.heap _ e (hgetD e.payload (hrefs e he))
  have hrefs' : ∀ e ∈ (m.rebuildState host aggregateId seedRef).1.eventStream,
      e.payload < (m.rebuildState host aggregateId seedRef).1.heap.length := by
    intro e he
    rw [h1] at he
    exact Nat.lt_of_lt_of_le (hrefs e he) h3
  obtain ⟨-, -, -, -, h5'⟩ := memory_rebuildState_spec host
    (m.rebuildState host aggregateId seedRef).1 aggregateId seedRef hrefs'
  refine ⟨h1, h2, h4, hstore, h5, ?_⟩
  rw [h5', h5, hstore, hgetD seedRef hseed]

/-- The sample memory evaluated: `rebuildState('User-101', seed)` leaves the
three objects and the log as they were and returns the new object at address
3, `{status:'active', balance:150}`. -/
theorem memory_rebuildState_sample (host : Host) :
    sampleMemory.rebuildState host (.str "User-101") 2
      = ({ eventStream := sampleMemory.eventStream
           nextEventId := sampleMemory.nextEventId
           heap := sampleMemory.heap
             ++ [.obj [("status", JSValue.ofString "active"), ("balance", JSValue.ofInt 150)]] },
          .ok 3) := rfl

/-- Witness of C8: the sample memory, rebuilt twice for `User-101` from the
seed at address 2. -/
theorem rebuildState_read_only_witness :
    2 < sampleMemory.heap.length
    ∧ (sampleMemory.rebuildState sampleHost (.str "User-101") 2).1.eventStream
      = sampleMemory.eventStream
    ∧ (sampleMemory.rebuildState sampleHost (.str "User-101") 2).1.nextEventId
      = sampleMemory.nextEventId
    ∧ (∀ i, i < sampleMemory.heap.length →
        (sampleMemory.rebuildState sampleHost (.str "User-101") 2).1.heap.get? i
          = sampleMemory.heap.get? i)
    ∧ (sampleMemory.rebuildState sampleHost (.str "User-101") 2).1.store = sampleMemory.store
    ∧ (sampleMemory.rebuildState sampleHost (.str "User-101") 2).2.map
        (fun ref =>
          (sampleMemory.rebuildState sampleHost (.str "User-101") 2).1.heap.getD ref
            JSValue.undef)
      = sampleMemory.store.rebuildState sampleHost (.str "User-101")
          (sampleMemory.heap.getD 2 JSValue.undef)
    ∧ ((sampleMemory.rebuildState sampleHost (.str "User-101") 2).1.rebuildState sampleHost
          (.str "User-101") 2).2.map
        (fun ref =>
          ((sampleMemory.rebuildState sampleHost (.str "User-101") 2).1.rebuildState sampleHost
            (.str "User-101") 2).1.heap.getD ref JSValue.undef)
      = (sampleMemory.rebuildState sampleHost (.str "User-101") 2).2.map
        (fun ref =>
          (sampleMemory.rebuildState sampleHost (.str "User-101") 2).1.heap.getD ref
            JSValue.undef) :=
  ⟨by decide,
    rebuildState_read_only sampleHost sampleMemory (.str "User-101") 2 (by decide)
      (by
        intro e he
        simp only [sampleMemory, Memory.recordEvent, List.nil_append, List.cons_append,
          List.mem_cons, List.mem_singleton, List.mem_nil_iff, or_false] at he
        rcases he with rfl | rfl <;> decide)⟩

end TrustLedger
